import Mathlib

/-!
The allocators of `wb_alloc.h`: a verification development.

Shallow embedding of `src/wpl/thirdparty/wb_alloc.h` (the platform non-specific
part, lines 800-1390) for an LP64 target.

* Machine words (`usize`, `isize`, pointers) are natural numbers standing for
  64-bit patterns; every arithmetic result is reduced modulo `2^64`, and a
  signed comparison goes through `toISize`.
* The byte memory is a function from addresses to bytes.  A descriptor
  (`MemoryArena`) that the C code reaches through a pointer is a Lean value
  that is passed in and returned.
* The four calls of the OS facade are external: their return values come from
  an `OS` record of oracles (which may depend on the calls made so far), and
  every call is appended to a log.  Freshly mapped pages read as zero.
* `WB_ALLOC_ERROR_HANDLER` appends a `Report` to the list of reports.
* The field `end` of the C structs is spelled `end_`.
* The `isize` counters of a pool (`count`, `capacity`, `lastFilled`) are
  integers; a count or an index does not come near `2^63`, where the C
  arithmetic on them would be undefined.  `MemoryPool.alloc`, the pointer to
  the arena of the pool, has no field: the arena is passed along with the pool.
* A sub-arena of a tagged heap lives in byte memory: `tag` at offset 0, `next`
  at 8, `head` at 16, `end` at 24, `buffer` at 32, 40 bytes with padding.
* A loop over a linked list in memory takes a number of iterations it may make
  (`fuel`) and gives `none` when that is not enough.
-/

namespace WbAlloc

/-! ## Machine words -/

/-- Result of `a + b` in 64-bit arithmetic. -/
def wadd (a b : Nat) : Nat := (a + b) % 2 ^ 64

/-- Result of `a - b` in 64-bit arithmetic. -/
def wsub (a b : Nat) : Nat := (a + (2 ^ 64 - b % 2 ^ 64)) % 2 ^ 64

/-- Value of a 64-bit pattern read as `isize`. -/
def toISize (x : Nat) : Int :=
  if x % 2 ^ 64 < 2 ^ 63 then ((x % 2 ^ 64 : Nat) : Int) else ((x % 2 ^ 64 : Nat) : Int) - 2 ^ 64

/-- Value of `sizeof(WB_ALLOC_STACK_PTR)`, a `usize`. -/
def sizeofStackPtr : Nat := 8

/-- Value of `sizeof(WB_ALLOC_EXTENDED_INFO)`, an `isize`. -/
def sizeofExtendedInfo : Nat := 8

def FlagArenaNormal : Nat := 0
def FlagArenaFixedSize : Nat := 1
def FlagArenaStack : Nat := 2
def FlagArenaExtended : Nat := 4
def FlagArenaNoZeroMemory : Nat := 8
def FlagArenaNoRecommit : Nat := 16

def FlagPoolNormal : Nat := 0
def FlagPoolFixedSize : Nat := 1
def FlagPoolCompacting : Nat := 2
def FlagPoolNoZeroMemory : Nat := 4
def FlagPoolNoDoubleFreeCheck : Nat := 8

def FlagTaggedHeapNormal : Nat := 0
def FlagTaggedHeapFixedSize : Nat := 1
def FlagTaggedHeapNoZeroMemory : Nat := 2
def FlagTaggedHeapNoSetCommitSize : Nat := 4
def FlagTaggedHeapSearchForBestFit : Nat := 8
def wbi__TaggedHeapSearchSize : Nat := 8
def WB_ALLOC_TAGGEDHEAP_MAX_TAG_COUNT : Nat := 64

/-- The 64-bit pattern of an `isize` value. -/
def ofISize (i : Int) : Nat := (i % 2 ^ 64).toNat

/-- Result of `a * b` in 64-bit arithmetic. -/
def wmul (a b : Nat) : Nat := (a * b) % 2 ^ 64

/-- Value of `sizeof(void*)`. -/
def sizeofPointer : Nat := 8

/-- Value of `sizeof(wbi__TaggedHeapArena)`: four words, one `char`, padding. -/
def sizeofTaggedHeapArena : Nat := 40

/-- Value of `sizeof(MemoryArena)`: six pointers, a `MemoryInfo` of four words,
two `isize`. -/
def sizeofMemoryArena : Nat := 96

/-- Value of `sizeof(MemoryPool)`: nine words. -/
def sizeofMemoryPool : Nat := 72

/-- Value of `sizeof(TaggedHeap)`: a pointer, a `MemoryPool`, 64 pointers, a
`MemoryInfo`, three words. -/
def sizeofTaggedHeap : Nat :=
  8 + sizeofMemoryPool + WB_ALLOC_TAGGEDHEAP_MAX_TAG_COUNT * 8 + 32 + 16 + 8

/-! ## Memory, OS facade, reports -/

/-- Byte memory: the byte stored at each address. -/
abbrev Mem := Nat → Nat

/-- Effect of `memset(ptr, value, size)`. -/
def memset (m : Mem) (ptr value size : Nat) : Mem :=
  fun x => if ptr ≤ x ∧ x < ptr + size then value else m x

/-- Effect of `memcpy(dst, src, size)`, the source read before any store. -/
def memcpy (m : Mem) (dst src size : Nat) : Mem :=
  fun x => if dst ≤ x ∧ x < dst + size then m (src + (x - dst)) else m x

/-- Load of a 64-bit little-endian word at `addr`. -/
def read64 (m : Mem) (addr : Nat) : Nat :=
  m addr + m (addr + 1) * 2 ^ 8 + m (addr + 2) * 2 ^ 16 + m (addr + 3) * 2 ^ 24
    + m (addr + 4) * 2 ^ 32 + m (addr + 5) * 2 ^ 40 + m (addr + 6) * 2 ^ 48
    + m (addr + 7) * 2 ^ 56

/-- Store of the 64-bit little-endian word `v` at `addr`. -/
def write64 (m : Mem) (addr v : Nat) : Mem :=
  fun x => if addr ≤ x ∧ x < addr + 8 then (v / 2 ^ (8 * (x - addr))) % 256 else m x

/-- A call of the OS facade, with its arguments. -/
inductive OSCall where
  | allocateVirtualSpace (size : Nat)
  | commitMemory (addr size flags : Nat)
  | decommitMemory (addr size : Nat)
  | freeAddressSpace (addr size : Nat)
  deriving DecidableEq, Repr

/-- Return values of the OS facade calls that return one, given the calls made
so far and the arguments; `0` is the null pointer. -/
structure OS where
  allocateVirtualSpace : List OSCall → Nat → Nat
  commitMemory : List OSCall → Nat → Nat → Nat → Nat

/-- What `WB_ALLOC_ERROR_HANDLER` was called for. -/
inductive Report where
  | arenaInitFixedSize
  | arenaInitCommitFailed
  | arenaPushOutOfMemory
  | arenaPushCommitFailed
  | arenaPopNonStack
  | poolRetrieveOutOfMemory
  | poolRetrieveArenaPushFailed
  | poolReleaseDoubleFree
  | taggedAllocTooLarge
  | taggedAllocRetrieveFailedNewTag
  | taggedAllocRetrieveFailed
  deriving DecidableEq, Repr

/-- Everything outside the descriptors: memory, the OS calls made, the reports. -/
structure World where
  mem : Mem
  log : List OSCall
  reports : List Report

/-- Call of `WB_ALLOC_ERROR_HANDLER`. -/
def World.report (w : World) (r : Report) : World :=
  { w with reports := w.reports ++ [r] }

/-- Model of `wbi__allocateVirtualSpace`: reserves, returns the base address. -/
def wbi__allocateVirtualSpace (os : OS) (w : World) (size : Nat) : World × Nat :=
  ({ w with log := w.log ++ [OSCall.allocateVirtualSpace size] },
    os.allocateVirtualSpace w.log size)

/-- Model of `wbi__commitMemory`: a fresh zero-filled mapping over
`[addr, addr+size)` when it succeeds, null when it fails. -/
def wbi__commitMemory (os : OS) (w : World) (addr size flags : Nat) : World × Nat :=
  let ret := os.commitMemory w.log addr size flags
  let w1 : World := { w with log := w.log ++ [OSCall.commitMemory addr size flags] }
  if ret ≠ 0 then ({ w1 with mem := memset w1.mem addr 0 size }, ret) else (w1, 0)

/-- Model of `wbi__decommitMemory`: the pages of `[addr, addr+size)` are
replaced by a fresh inaccessible mapping, their contents are gone. -/
def wbi__decommitMemory (w : World) (addr size : Nat) : World :=
  { w with mem := memset w.mem addr 0 size,
           log := w.log ++ [OSCall.decommitMemory addr size] }

/-! ## Structs -/

structure MemoryInfo where
  totalMemory : Nat
  commitSize : Nat
  pageSize : Nat
  commitFlags : Nat
  deriving DecidableEq, Repr

structure MemoryArena where
  name : Option String
  start : Nat
  head : Nat
  end_ : Nat
  tempStart : Nat
  tempHead : Nat
  info : MemoryInfo
  align : Nat
  flags : Nat
  deriving DecidableEq, Repr

structure MemoryPool where
  elementSize : Nat
  count : Int
  capacity : Int
  slots : Nat
  name : Option String
  freeList : Nat
  lastFilled : Int
  flags : Nat
  deriving DecidableEq, Repr

structure TaggedHeap where
  name : Option String
  pool : MemoryPool
  arenas : List Nat
  info : MemoryInfo
  arenaSize : Nat
  align : Nat
  flags : Nat
  deriving DecidableEq, Repr

/-- The descriptor after `memset(pool, 0, sizeof(MemoryPool))`. -/
def MemoryPool.zeroed : MemoryPool :=
  { elementSize := 0, count := 0, capacity := 0, slots := 0, name := none, freeList := 0,
    lastFilled := 0, flags := 0 }

/-- The descriptor after `memset(arena, 0, sizeof(MemoryArena))`. -/
def MemoryArena.zeroed : MemoryArena :=
  { name := none, start := 0, head := 0, end_ := 0, tempStart := 0, tempHead := 0,
    info := { totalMemory := 0, commitSize := 0, pageSize := 0, commitFlags := 0 },
    align := 0, flags := 0 }

/-! ## The library (lines 801-1052) -/

def alignTo (x align : Nat) : Nat :=
  let mod := x &&& wsub align 1
  if mod ≠ 0 then wadd x (wsub align mod) else x

def arenaFixedSizeInit (_arena : MemoryArena) (buffer size flags : Nat) : MemoryArena :=
  let arena := MemoryArena.zeroed
  let arena := { arena with name := some "arena" }
  let arena := { arena with flags := flags ||| FlagArenaFixedSize }
  let arena := { arena with align := 8 }
  let arena := { arena with start := buffer }
  let arena := { arena with head := buffer }
  let arena := { arena with end_ := wadd arena.start size }
  let arena := { arena with tempStart := 0 }
  { arena with tempHead := 0 }

def arenaInit (os : OS) (w : World) (_arena : MemoryArena) (info : MemoryInfo) (flags : Nat) :
    World × MemoryArena :=
  let arena := MemoryArena.zeroed
  if flags &&& FlagArenaFixedSize ≠ 0 then
    (w.report Report.arenaInitFixedSize, arena)
  else
    let arena := { arena with flags := flags }
    let arena := { arena with name := some "arena" }
    let arena := { arena with info := info }
    let r := wbi__allocateVirtualSpace os w info.totalMemory
    let arena := { arena with start := r.2 }
    let c := wbi__commitMemory os r.1 arena.start info.commitSize info.commitFlags
    if c.2 = 0 then
      (c.1.report Report.arenaInitCommitFailed, arena)
    else
      let arena := { arena with head := arena.start }
      let arena := { arena with end_ := wadd arena.start info.commitSize }
      let arena := { arena with tempStart := 0 }
      let arena := { arena with tempHead := 0 }
      (c.1, { arena with align := 8 })

/-- Lines 905-923 of `arenaPushEx`, reached when no growth is needed or after
the growth commit: the stack back-pointer, the extended word, the new head.
`size` is not used any more at this point. -/
def arenaPushEx.finish (w : World) (arena : MemoryArena) (oldHead newHead extended : Nat) :
    World × MemoryArena × Nat :=
  let w1 : World :=
    if arena.flags &&& FlagArenaStack ≠ 0 then
      { w with mem := write64 w.mem (wsub newHead sizeofStackPtr) oldHead }
    else w
  let w2 : World :=
    if arena.flags &&& FlagArenaExtended ≠ 0 then
      { w1 with mem := write64 w1.mem oldHead extended }
    else w1
  let ret := if arena.flags &&& FlagArenaExtended ≠ 0 then wadd oldHead sizeofExtendedInfo
    else oldHead
  (w2, { arena with head := newHead }, ret)

/-- The adjusted `size` of `arenaPushEx` after lines 876-882. -/
def arenaPushEx.size (arena : MemoryArena) (size : Nat) : Nat :=
  let size := if arena.flags &&& FlagArenaStack ≠ 0 then wadd size sizeofStackPtr else size
  if arena.flags &&& FlagArenaExtended ≠ 0 then wadd size sizeofExtendedInfo else size

def arenaPushEx (os : OS) (w : World) (arena : MemoryArena) (size extended : Nat) :
    World × MemoryArena × Nat :=
  let size := arenaPushEx.size arena size
  let oldHead := arena.head
  let newHead := alignTo (wadd arena.head size) arena.align
  if newHead > arena.end_ then
    if arena.flags &&& FlagArenaFixedSize ≠ 0 then
      (w.report Report.arenaPushOutOfMemory, arena, 0)
    else
      let toExpand := alignTo size arena.info.commitSize
      let c := wbi__commitMemory os w arena.end_ toExpand arena.info.commitFlags
      if c.2 = 0 then
        (c.1.report Report.arenaPushCommitFailed, arena, 0)
      else
        arenaPushEx.finish c.1 { arena with end_ := wadd arena.end_ toExpand }
          oldHead newHead extended
  else
    arenaPushEx.finish w arena oldHead newHead extended

def arenaPush (os : OS) (w : World) (arena : MemoryArena) (size : Nat) :
    World × MemoryArena × Nat :=
  arenaPushEx os w arena size 0

def arenaPop (w : World) (arena : MemoryArena) : World × MemoryArena :=
  if arena.flags &&& FlagArenaStack = 0 then
    (w.report Report.arenaPopNonStack, arena)
  else
    let prevHeadPtr := wsub arena.head sizeofStackPtr
    let newHead := read64 w.mem prevHeadPtr
    if toISize newHead ≤ toISize arena.start then
      (w, { arena with head := arena.start })
    else
      let w1 : World :=
        if arena.flags &&& FlagArenaNoZeroMemory = 0 then
          let size := wsub arena.head newHead
          if size > 0 then { w with mem := memset w.mem newHead 0 size } else w
        else w
      (w1, { arena with head := newHead })

def arenaStartTemp (arena : MemoryArena) : MemoryArena :=
  if arena.tempStart ≠ 0 then arena
  else
    let arena := { arena with tempStart := alignTo arena.head arena.info.pageSize }
    let arena := { arena with tempHead := arena.head }
    { arena with head := arena.tempStart }

def arenaEndTemp (os : OS) (w : World) (arena : MemoryArena) : World × MemoryArena :=
  if arena.tempStart = 0 then (w, arena)
  else
    let arena := { arena with head := alignTo arena.head arena.info.pageSize }
    let size := wsub arena.head arena.tempStart
    let w1 : World :=
      if arena.flags &&& FlagArenaNoRecommit = 0 then
        let d := wbi__decommitMemory w arena.tempStart size
        (wbi__commitMemory os d arena.tempStart size arena.info.commitFlags).1
      else if arena.flags &&& FlagArenaNoZeroMemory = 0 then
        { w with mem := memset w.mem arena.tempStart 0 (wsub arena.head arena.tempStart) }
      else w
    let arena := { arena with head := arena.tempHead }
    let arena := { arena with tempHead := 0 }
    (w1, { arena with tempStart := 0 })

def arenaClear (os : OS) (w : World) (arena : MemoryArena) : World × MemoryArena :=
  let local_ := arena
  let size := wsub arena.end_ arena.start
  let d := wbi__decommitMemory w local_.start size
  let c := wbi__commitMemory os d local_.start size local_.info.commitFlags
  (c.1, local_)

/-! ## The library: memory pool (lines 1062-1203) -/

def poolInit (_pool : MemoryPool) (alloc : MemoryArena) (elementSize flags : Nat) : MemoryPool :=
  let pool := MemoryPool.zeroed
  let pool := { pool with flags := flags }
  let pool := { pool with name := some "pool" }
  let pool := { pool with
    elementSize := if elementSize < sizeofPointer then sizeofPointer else elementSize }
  let pool := { pool with count := 0 }
  let pool := { pool with lastFilled := -1 }
  let pool := { pool with capacity := toISize (wsub alloc.end_ alloc.head / elementSize) }
  let pool := { pool with slots := alloc.head }
  { pool with freeList := 0 }

/-- Lines 1169-1174 of `poolRetrieve`: the next slot of the linear region. -/
def poolRetrieve.advance (w : World) (arena : MemoryArena) (pool : MemoryPool) :
    World × MemoryArena × MemoryPool × Nat :=
  let pool := { pool with lastFilled := pool.lastFilled + 1 }
  let ptr := wadd pool.slots (wmul (ofISize pool.lastFilled) pool.elementSize)
  let pool := { pool with count := pool.count + 1 }
  let w1 : World :=
    if pool.flags &&& FlagPoolNoZeroMemory = 0 then
      { w with mem := memset w.mem ptr 0 pool.elementSize }
    else w
  (w1, arena, pool, ptr)

def poolRetrieve (os : OS) (w : World) (arena : MemoryArena) (pool : MemoryPool) :
    World × MemoryArena × MemoryPool × Nat :=
  if pool.flags &&& FlagPoolCompacting = 0 ∧ pool.freeList ≠ 0 then
    let ptr := pool.freeList
    let pool := { pool with freeList := read64 w.mem pool.freeList }
    let pool := { pool with count := pool.count + 1 }
    let w1 : World :=
      if pool.flags &&& FlagPoolNoZeroMemory = 0 then
        { w with mem := memset w.mem ptr 0 pool.elementSize }
      else w
    (w1, arena, pool, ptr)
  else if pool.lastFilled ≥ pool.capacity - 1 then
    if pool.flags &&& FlagPoolFixedSize ≠ 0 then
      (w.report Report.poolRetrieveOutOfMemory, arena, pool, 0)
    else
      let r := arenaPush os w arena arena.info.commitSize
      if r.2.2 = 0 then
        (r.1.report Report.poolRetrieveArenaPushFailed, r.2.1, pool, 0)
      else
        let pool := { pool with
          capacity := toISize (wsub r.2.1.end_ pool.slots / pool.elementSize) }
        poolRetrieve.advance r.1 r.2.1 pool
  else
    poolRetrieve.advance w arena pool

/-- The `do ... while` loop of `poolRelease` (lines 1184-1191) from `localList`
on: whether `ptr` is one of the nodes of the free list. -/
def poolRelease.search (mem : Mem) (ptr : Nat) : Nat → Nat → Option Bool
  | 0, _ => none
  | fuel + 1, localList =>
    if ptr = localList then some true
    else if read64 mem localList ≠ 0 then poolRelease.search mem ptr fuel (read64 mem localList)
    else some false

def poolRelease (fuel : Nat) (w : World) (pool : MemoryPool) (ptr : Nat) :
    Option (World × MemoryPool) :=
  let pool := { pool with count := pool.count - 1 }
  let found : Option Bool :=
    if pool.freeList ≠ 0 ∧ pool.flags &&& FlagPoolNoDoubleFreeCheck = 0 then
      poolRelease.search w.mem ptr fuel pool.freeList
    else some false
  match found with
  | none => none
  | some true => some (w.report Report.poolReleaseDoubleFree, pool)
  | some false =>
    if pool.flags &&& FlagPoolCompacting ≠ 0 then
      let last := wadd pool.slots (wmul (ofISize pool.count) pool.elementSize)
      some ({ w with mem := memcpy w.mem ptr last pool.elementSize }, pool)
    else
      some ({ w with mem := write64 w.mem ptr pool.freeList }, { pool with freeList := ptr })

/-! ## The library: tagged heap (lines 1218-1236, 1278-1379) -/

/-- The descriptor after `memset(heap, 0, sizeof(TaggedHeap))`. -/
def TaggedHeap.zeroed : TaggedHeap :=
  { name := none, pool := MemoryPool.zeroed,
    arenas := List.replicate WB_ALLOC_TAGGEDHEAP_MAX_TAG_COUNT 0,
    info := { totalMemory := 0, commitSize := 0, pageSize := 0, commitFlags := 0 },
    arenaSize := 0, align := 0, flags := 0 }

def taggedInit (_heap : TaggedHeap) (arena : MemoryArena) (internalArenaSize flags : Nat) :
    TaggedHeap :=
  let heap := TaggedHeap.zeroed
  let heap := { heap with name := some "taggedHeap" }
  let heap := { heap with flags := flags }
  let heap := { heap with align := 8 }
  let heap := { heap with arenaSize := internalArenaSize }
  let poolFlags := FlagPoolNormal ||| FlagPoolNoDoubleFreeCheck |||
    (if flags &&& FlagTaggedHeapNoZeroMemory ≠ 0 then FlagPoolNoZeroMemory else 0)
  let pool := poolInit heap.pool arena (wadd internalArenaSize sizeofTaggedHeapArena) poolFlags
  { heap with pool := pool }

def wbi__taggedArenaInit (heap : TaggedHeap) (mem : Mem) (arena tag : Nat) : Mem :=
  let m0 := memset mem arena 0 sizeofTaggedHeapArena
  let m1 := write64 m0 arena tag
  let m2 := write64 m1 (arena + 16) (arena + 32)
  write64 m2 (arena + 24) (wadd (read64 m2 (arena + 16)) heap.arenaSize)

/-- The macro `wbi__arenaSize` of `wbi__taggedArenaSortBySize`, as written:
`(isize)arena->head - (isize)arena->head`. -/
def wbi__arenaSize (mem : Mem) (arena : Nat) : Int :=
  toISize (wsub (read64 mem (arena + 16)) (read64 mem (arena + 16)))

/-- The `while` loop of `wbi__taggedArenaSortBySize` (lines 1303-1306).  The
first argument is `j + 1` for the `j` of the C code; the result is the array
and the final `j + 1`. -/
def wbi__taggedArenaSortBySize.shift (mem : Mem) (minSize : Int) :
    Nat → List Nat → List Nat × Nat
  | 0, array => (array, 0)
  | j + 1, array =>
    if wbi__arenaSize mem (array.getD j 0) > minSize then
      wbi__taggedArenaSortBySize.shift mem minSize j (array.set (j + 1) (array.getD j 0))
    else (array, j + 1)

/-- The `for` loop of `wbi__taggedArenaSortBySize` from index `i` on; the first
argument bounds the iterations left. -/
def wbi__taggedArenaSortBySize.loop (mem : Mem) (count : Nat) :
    Nat → Nat → List Nat → List Nat
  | 0, _, array => array
  | left + 1, i, array =>
    if i < count then
      let j := i - 1
      let minSize := wbi__arenaSize mem (array.getD i 0)
      let array1 :=
        if wbi__arenaSize mem (array.getD j 0) > minSize then
          let temp := array.getD i 0
          let r := wbi__taggedArenaSortBySize.shift mem minSize (j + 1) array
          r.1.set r.2 temp
        else array
      wbi__taggedArenaSortBySize.loop mem count left (i + 1) array1
    else array

def wbi__taggedArenaSortBySize (mem : Mem) (array : List Nat) (count : Nat) : List Nat :=
  wbi__taggedArenaSortBySize.loop mem count count 1 array

/-- The `while` loop of `taggedAlloc` (lines 1347-1354): follows `next` from
`arena`, collects the sub-arenas that fit, stops at the end of the list or with
eight collected.  Gives the final `arena` and `canFit`. -/
def taggedAlloc.search (mem : Mem) (size : Nat) : Nat → Nat → List Nat → Option (Nat × List Nat)
  | 0, _, _ => none
  | fuel + 1, arena, canFit =>
    let next := read64 mem (arena + 8)
    if next = 0 then some (next, canFit)
    else if wadd (read64 mem (next + 16)) size < read64 mem (next + 24) then
      if (canFit ++ [next]).length > wbi__TaggedHeapSearchSize - 1 then
        some (next, canFit ++ [next])
      else taggedAlloc.search mem size fuel next (canFit ++ [next])
    else taggedAlloc.search mem size fuel next canFit

/-- Lines 1376-1378 of `taggedAlloc`: the bump in the chosen sub-arena. -/
def taggedAlloc.bump (w : World) (alloc : MemoryArena) (heap : TaggedHeap) (arena size : Nat) :
    World × MemoryArena × TaggedHeap × Nat :=
  let oldHead := read64 w.mem (arena + 16)
  ({ w with mem := write64 w.mem (arena + 16) (alignTo (wadd oldHead size) heap.align) },
    alloc, heap, oldHead)

/-- Lines 1362-1373 of `taggedAlloc`, then the bump: a new sub-arena whose
`next` is `arena`. -/
def taggedAlloc.fresh (os : OS) (w : World) (alloc : MemoryArena) (heap : TaggedHeap)
    (arena tag size : Nat) : World × MemoryArena × TaggedHeap × Nat :=
  let r := poolRetrieve os w alloc heap.pool
  let heap1 := { heap with pool := r.2.2.1 }
  if r.2.2.2 = 0 then
    (r.1.report Report.taggedAllocRetrieveFailed, r.2.1, heap1, 0)
  else
    let newArena := r.2.2.2
    let m1 := wbi__taggedArenaInit heap1 r.1.mem newArena tag
    let m2 := write64 m1 (newArena + 8) arena
    taggedAlloc.bump { r.1 with mem := m2 } r.2.1 heap1 newArena size

/-- Lines 1340-1378 of `taggedAlloc`, reached with `heap->arenas[tag]` not null. -/
def taggedAlloc.place (os : OS) (fuel : Nat) (w : World) (alloc : MemoryArena)
    (heap : TaggedHeap) (tag size : Nat) : Option (World × MemoryArena × TaggedHeap × Nat) :=
  let arena := heap.arenas.getD tag 0
  if wadd (read64 w.mem (arena + 16)) size > read64 w.mem (arena + 24) then
    if heap.flags &&& FlagTaggedHeapSearchForBestFit ≠ 0 then
      match taggedAlloc.search w.mem size fuel arena [] with
      | none => none
      | some (last, canFit) =>
        if canFit.length > 0 then
          some (taggedAlloc.bump w alloc heap
            ((wbi__taggedArenaSortBySize w.mem canFit canFit.length).getD 0 0) size)
        else
          some (taggedAlloc.fresh os w alloc heap last tag size)
    else
      some (taggedAlloc.fresh os w alloc heap arena tag size)
  else
    some (taggedAlloc.bump w alloc heap arena size)

def taggedAlloc (os : OS) (fuel : Nat) (w : World) (alloc : MemoryArena) (heap : TaggedHeap)
    (tag size : Nat) : Option (World × MemoryArena × TaggedHeap × Nat) :=
  if size > heap.arenaSize then
    some (w.report Report.taggedAllocTooLarge, alloc, heap, 0)
  else if heap.arenas.getD tag 0 = 0 then
    let r := poolRetrieve os w alloc heap.pool
    let heap1 := { heap with pool := r.2.2.1 }
    let heap2 := { heap1 with arenas := heap1.arenas.set tag r.2.2.2 }
    if r.2.2.2 = 0 then
      some (r.1.report Report.taggedAllocRetrieveFailedNewTag, r.2.1, heap2, 0)
    else
      taggedAlloc.place os fuel
        { r.1 with mem := wbi__taggedArenaInit heap2 r.1.mem r.2.2.2 tag } r.2.1 heap2 tag size
  else
    taggedAlloc.place os fuel w alloc heap tag size

/-- The `do ... while` loop of `taggedFree` (lines 1384-1386): releases `head`,
then follows its `next`.  The first argument is the fuel of each `poolRelease`,
the second the number of sub-arenas the loop may visit. -/
def taggedFree.loop (fuel : Nat) : Nat → World → MemoryPool → Nat → Option (World × MemoryPool)
  | 0, _, _, _ => none
  | left + 1, w, pool, head =>
    match poolRelease fuel w pool head with
    | none => none
    | some r =>
      if read64 r.1.mem (head + 8) ≠ 0 then
        taggedFree.loop fuel left r.1 r.2 (read64 r.1.mem (head + 8))
      else some r

def taggedFree (fuel : Nat) (w : World) (heap : TaggedHeap) (tag : Nat) :
    Option (World × TaggedHeap) :=
  let head := heap.arenas.getD tag 0
  let r : Option (World × MemoryPool) :=
    if head ≠ 0 then taggedFree.loop fuel fuel w heap.pool head else some (w, heap.pool)
  match r with
  | none => none
  | some r => some (r.1, { heap with pool := r.2, arenas := heap.arenas.set tag 0 })

/-! ## The library: fixed-size bootstraps (lines 992-1007, 1210-1216, 1257-1276) -/

/-- Sum computed by `calcTaggedHeapSize`; the `sizeof` operands make the
arithmetic unsigned, the result is the pattern of the `isize` returned. -/
def calcTaggedHeapSize (arenaSize arenaCount bootstrapped : Nat) : Nat :=
  wadd (wmul arenaCount (wadd arenaSize sizeofTaggedHeapArena))
    (wmul sizeofTaggedHeap bootstrapped)

/-- The descriptor that the C code stores at `strapped` is the value returned
with that address (the bytes of stored descriptors are not part of the byte
memory); `none` stands for the store through a null `strapped`. -/
def arenaFixedSizeBootstrap (os : OS) (w : World) (buffer size flags : Nat) :
    Option (World × MemoryArena × Nat) :=
  let arena := arenaFixedSizeInit MemoryArena.zeroed buffer size (flags ||| FlagArenaFixedSize)
  let r := arenaPush os w arena (sizeofMemoryArena + 16)
  let strapped := r.2.2
  if strapped = 0 then none
  else if flags &&& FlagArenaStack ≠ 0 then
    let q := arenaPushEx os r.1 r.2.1 0 0
    let m := write64 q.1.mem (wsub q.2.1.head sizeofStackPtr) q.2.1.head
    some ({ q.1 with mem := m }, q.2.1, strapped)
  else some (r.1, r.2.1, strapped)

/-- Gives the world, the bootstrapped arena, the heap descriptor and the
address `heap` returned; `none` stands for `taggedInit` on a null `heap` and
for the failure of `arenaFixedSizeBootstrap`. -/
def taggedFixedSizeBootstrap (os : OS) (w : World) (arenaSize buffer bufferSize flags : Nat) :
    Option (World × MemoryArena × TaggedHeap × Nat) :=
  let flags := flags ||| FlagTaggedHeapFixedSize
  let arenaFlags := FlagArenaFixedSize |||
    (if flags &&& FlagTaggedHeapNoZeroMemory ≠ 0 then FlagArenaNoZeroMemory else 0)
  match arenaFixedSizeBootstrap os w buffer bufferSize arenaFlags with
  | none => none
  | some a =>
    let r := arenaPush os a.1 a.2.1 sizeofTaggedHeap
    if r.2.2 = 0 then none
    else some (r.1, r.2.1, taggedInit TaggedHeap.zeroed r.2.1 arenaSize flags, r.2.2)

/-! ## Call sequences -/

/-- The state after `n` calls `arenaPush(arena, size)`, return values dropped. -/
def pushN (os : OS) (size : Nat) : Nat → World × MemoryArena → World × MemoryArena
  | 0, s => s
  | n + 1, s =>
    ((arenaPush os (pushN os size n s).1 (pushN os size n s).2 size).1,
      (arenaPush os (pushN os size n s).1 (pushN os size n s).2 size).2.1)

/-- The state after the calls `arenaPushEx(arena, size, extended)` for the listed
pairs `(size, extended)`, in order; `none` when one of them returns null. -/
def pushAll (os : OS) : List (Nat × Nat) → World × MemoryArena → Option (World × MemoryArena)
  | [], s => some s
  | r :: rs, s =>
    if (arenaPushEx os s.1 s.2 r.1 r.2).2.2 = 0 then none
    else pushAll os rs ((arenaPushEx os s.1 s.2 r.1 r.2).1, (arenaPushEx os s.1 s.2 r.1 r.2).2.1)

/-- The state after `k` calls `arenaPop(arena)`. -/
def popN : Nat → World × MemoryArena → World × MemoryArena
  | 0, s => s
  | k + 1, s => arenaPop (popN k s).1 (popN k s).2

/-- A Stack-mode arena in a consistent state: `start <= head <= end`, the
alignment is a power of two, and, unless the arena is fixed-size, the commit
size is a power of two that the alignment divides, as it divides `end`. -/
def StackArenaOK (a : MemoryArena) : Prop :=
  a.flags &&& FlagArenaStack ≠ 0 ∧ a.start ≤ a.head ∧ a.head ≤ a.end_ ∧
  (∃ k, a.align = 2 ^ k) ∧
  (a.flags &&& FlagArenaFixedSize ≠ 0 ∨
    ((∃ c, a.info.commitSize = 2 ^ c) ∧ a.align ∣ a.info.commitSize ∧ a.align ∣ a.end_))

/-- An upper bound on the bytes by which the listed pushes can move `end`: per
push the size, the two header words, one alignment and one commit size. -/
def pushBudget (a : MemoryArena) (reqs : List (Nat × Nat)) : Nat :=
  (reqs.map (fun r => r.1 + 16 + a.align + a.info.commitSize)).sum

/-- One `poolRetrieve` on the world, the arena and the pool; the state after
it and the pointer returned. -/
def retrieveStep (os : OS) (s : World × MemoryArena × MemoryPool) :
    (World × MemoryArena × MemoryPool) × Nat :=
  (((poolRetrieve os s.1 s.2.1 s.2.2).1, (poolRetrieve os s.1 s.2.1 s.2.2).2.1,
      (poolRetrieve os s.1 s.2.1 s.2.2).2.2.1),
    (poolRetrieve os s.1 s.2.1 s.2.2).2.2.2)

/-- One `poolRelease(pool, ptr)` on the world, the arena and the pool. -/
def releaseStep (fuel : Nat) (s : World × MemoryArena × MemoryPool) (ptr : Nat) :
    Option (World × MemoryArena × MemoryPool) :=
  match poolRelease fuel s.1 s.2.2 ptr with
  | none => none
  | some r => some (r.1, s.2.1, r.2)

/-- The state after `n` calls `poolRetrieve(pool)` and the pointers they
returned, in order. -/
def retrieveN (os : OS) :
    Nat → World × MemoryArena × MemoryPool → (World × MemoryArena × MemoryPool) × List Nat
  | 0, s => (s, [])
  | n + 1, s =>
    ((retrieveN os n (retrieveStep os s).1).1,
      (retrieveStep os s).2 :: (retrieveN os n (retrieveStep os s).1).2)

/-- A call on a pool in a scripted scenario: `poolRetrieve`, or `poolRelease`
of the pointer that the `i`-th `poolRetrieve` of the scenario returned. -/
inductive PoolOp where
  | retrieve
  | releaseNth (i : Nat)
  deriving DecidableEq, Repr

/-- Runs a scripted scenario; the list holds the pointers returned so far. -/
def runPool (os : OS) (fuel : Nat) :
    List PoolOp → (World × MemoryArena × MemoryPool) × List Nat →
      Option ((World × MemoryArena × MemoryPool) × List Nat)
  | [], s => some s
  | PoolOp.retrieve :: ops, s =>
    runPool os fuel ops ((retrieveStep os s.1).1, s.2 ++ [(retrieveStep os s.1).2])
  | PoolOp.releaseNth i :: ops, s =>
    match releaseStep fuel s.1 (s.2.getD i 0) with
    | none => none
    | some s1 => runPool os fuel ops (s1, s.2)

/-- A call on a tagged heap in a scripted scenario. -/
inductive HeapOp where
  | alloc (tag size : Nat)
  | free (tag : Nat)
  deriving DecidableEq, Repr

/-- Runs a scripted scenario on a tagged heap; the list holds the pointers that
the `taggedAlloc` calls returned so far. -/
def runHeap (os : OS) (fuel : Nat) :
    List HeapOp → (World × MemoryArena × TaggedHeap) × List Nat →
      Option ((World × MemoryArena × TaggedHeap) × List Nat)
  | [], s => some s
  | HeapOp.alloc tag size :: ops, s =>
    match taggedAlloc os fuel s.1.1 s.1.2.1 s.1.2.2 tag size with
    | none => none
    | some r => runHeap os fuel ops ((r.1, r.2.1, r.2.2.1), s.2 ++ [r.2.2.2])
  | HeapOp.free tag :: ops, s =>
    match taggedFree fuel s.1.1 s.1.2.2 tag with
    | none => none
    | some r => runHeap os fuel ops ((r.1, s.1.2.1, r.2), s.2)

/-- The free list of a pool as it lies in memory: `l` lists its nodes from the
head `h` on, each node a non-null address whose first word is the next node,
the last one holding null. -/
def FreeListIs (mem : Mem) : Nat → List Nat → Prop
  | h, [] => h = 0
  | h, p :: ps => h = p ∧ p ≠ 0 ∧ FreeListIs mem (read64 mem p) ps

/-- The list of a tag as it lies in memory: `l` lists its sub-arenas from the
head `h` on, each one a non-null address whose `next` word (offset 8) is the
following one, the last one holding null. -/
def TagListIs (mem : Mem) : Nat → List Nat → Prop
  | h, [] => h = 0
  | h, p :: ps => h = p ∧ p ≠ 0 ∧ TagListIs mem (read64 mem (p + 8)) ps

/-- The regions `[p, p + size)` of the listed addresses are pairwise disjoint. -/
def SlotsApart (size : Nat) (l : List Nat) : Prop :=
  l.Pairwise (fun p q => p + size ≤ q ∨ q + size ≤ p)

/-- A free-list pool with the double-free check in a consistent state: `F`
is its free list, without repetition and made of slots handed out so far, as
are the pointers `returned` (or null); slots with an index below `B` lie in
the address space. -/
def PoolInv (B : Nat) (w : World) (pool : MemoryPool) (returned F : List Nat) : Prop :=
  pool.flags &&& FlagPoolCompacting = 0 ∧ pool.flags &&& FlagPoolNoDoubleFreeCheck = 0 ∧
  8 ≤ pool.elementSize ∧ -1 ≤ pool.lastFilled ∧
  pool.slots + B * pool.elementSize < 2 ^ 64 ∧
  FreeListIs w.mem pool.freeList F ∧ F.Nodup ∧
  (∀ q ∈ F, ∃ i : Nat, (i : Int) ≤ pool.lastFilled ∧ q = pool.slots + i * pool.elementSize) ∧
  (∀ p ∈ returned, p = 0 ∨
    ∃ i : Nat, (i : Int) ≤ pool.lastFilled ∧ p = pool.slots + i * pool.elementSize) ∧
  pool.count + F.length ≤ pool.lastFilled + 1

/-! ## Concrete inputs -/

/-- An OS whose reservation starts at 65536 and whose commits all succeed. -/
def demoOS : OS :=
  { allocateVirtualSpace := fun _ _ => 65536, commitMemory := fun _ addr _ _ => addr }

/-- A world with zeroed memory, no OS call made and nothing reported. -/
def demoWorld : World := { mem := fun _ => 0, log := [], reports := [] }

/-- A configuration of 64 MiB of address space, 1 MiB commits, 4 KiB pages, Read | Write. -/
def demoInfo : MemoryInfo :=
  { totalMemory := 67108864, commitSize := 1048576, pageSize := 4096, commitFlags := 3 }

/-- The fixed-size arena over the buffer `[4096, 8192)`, normal flags. -/
def demoFixedArena : MemoryArena :=
  arenaFixedSizeInit MemoryArena.zeroed 4096 4096 FlagArenaNormal

/-- An arena with three allocations made: head is past start. -/
def demoUsedArena : MemoryArena :=
  { name := some "arena", start := 65536, head := 65560, end_ := 1114112, tempStart := 0,
    tempHead := 0, info := demoInfo, align := 8, flags := FlagArenaNormal }

/-- The arena made by `arenaInit` over `demoOS` with the Stack flag; its head
equals its start. -/
def demoStackInit : World × MemoryArena :=
  arenaInit demoOS demoWorld MemoryArena.zeroed demoInfo FlagArenaStack

/-- Scenario S2 up to the pop: `p = arenaPush(arena, n)`, every byte of
`[p, p+n)` written with `byte`, then `arenaPop`.  Gives `p`, and the world and
the arena after the pop. -/
def pushWritePop (os : OS) (w : World) (arena : MemoryArena) (n byte : Nat) :
    Nat × World × MemoryArena :=
  let p := arenaPush os w arena n
  let written : World := { p.1 with mem := memset p.1.mem p.2.2 byte n }
  let q := arenaPop written p.2.1
  (p.2.2, q.1, q.2)

/-- Three pushes on `demoStackInit`; the second one needs growth. -/
def demoStackReqs : List (Nat × Nat) := [(100, 0), (2000000, 0), (0, 0)]

/-- The state after the pushes `demoStackReqs` on `demoStackInit`. -/
def demoStackPushed : World × MemoryArena :=
  (pushAll demoOS demoStackReqs demoStackInit).getD demoStackInit

/-- A fixed-size pool of 32-byte elements over `demoFixedArena`. -/
def demoPool : MemoryPool :=
  poolInit MemoryPool.zeroed demoFixedArena 32 FlagPoolFixedSize

/-- A fixed-size compacting pool of 32-byte elements over `demoFixedArena`. -/
def demoCompactingPool : MemoryPool :=
  poolInit MemoryPool.zeroed demoFixedArena 32 (FlagPoolFixedSize ||| FlagPoolCompacting)

/-- The arena made by `arenaInit` over `demoOS` with normal flags; its head
equals its start, with 1 MiB committed. -/
def demoNormalInit : World × MemoryArena :=
  arenaInit demoOS demoWorld MemoryArena.zeroed demoInfo FlagArenaNormal

/-- A growing pool of 1 MiB elements over `demoNormalInit`. -/
def demoGrowingPool : MemoryPool :=
  poolInit MemoryPool.zeroed demoNormalInit.2 1048576 FlagPoolNormal

/-- A tagged heap with 4096-byte sub-arenas over `demoNormalInit`. -/
def demoHeap : TaggedHeap :=
  taggedInit TaggedHeap.zeroed demoNormalInit.2 4096 FlagTaggedHeapNormal

/-- The state of `demoCompactingPool` after three retrieves, with the bytes
1, 2, 3 written over the three slots. -/
def demoCompactingFilled : World × MemoryArena × MemoryPool :=
  ({ (retrieveN demoOS 3 (demoWorld, demoFixedArena, demoCompactingPool)).1.1 with
      mem := memset (memset (memset demoWorld.mem 4096 1 32) 4128 2 32) 4160 3 32 },
    (retrieveN demoOS 3 (demoWorld, demoFixedArena, demoCompactingPool)).1.2)

/-- The start of a scripted scenario on `demoHeap`. -/
def demoHeapStart : (World × MemoryArena × TaggedHeap) × List Nat :=
  ((demoNormalInit.1, demoNormalInit.2, demoHeap), [])

/-- Scenario S5 up to the free: 3000 and 2000 bytes under tag 1, then 1000
bytes under tag 2. -/
def demoS5Ops : List HeapOp :=
  [HeapOp.alloc 1 3000, HeapOp.alloc 1 2000, HeapOp.alloc 2 1000]

/-- A tagged heap as `demoHeap`, in SearchForBestFit mode. -/
def demoSearchHeap : TaggedHeap :=
  taggedInit TaggedHeap.zeroed demoNormalInit.2 4096 FlagTaggedHeapSearchForBestFit

/-- The start of a scripted scenario on `demoSearchHeap`. -/
def demoSearchStart : (World × MemoryArena × TaggedHeap) × List Nat :=
  ((demoNormalInit.1, demoNormalInit.2, demoSearchHeap), [])

/-- One `taggedAlloc(heap, 1, 100)` on `demoHeap`, then the byte 170 written
over the 100 bytes returned (at 65568). -/
def demoHeapWritten : World × TaggedHeap :=
  match taggedAlloc demoOS 8 demoNormalInit.1 demoNormalInit.2 demoHeap 1 100 with
  | none => (demoNormalInit.1, demoHeap)
  | some r => ({ r.1 with mem := memset r.1.mem r.2.2.2 170 100 }, r.2.2.1)

/-- The four words of a sub-arena header stored at `arena`. -/
def storeSubArena (m : Mem) (arena tag next head end_ : Nat) : Mem :=
  write64 (write64 (write64 (write64 m arena tag) (arena + 8) next) (arena + 16) head)
    (arena + 24) end_

/-- The memory of a heap with 4096-byte sub-arenas whose tag 7 has a list of
three: at 65536 a full one, at 69672 one with 3000 bytes left, at 73808 one
with 500 bytes left. -/
def demoBestFitWorld : World :=
  let m0 := demoNormalInit.1.mem
  let m1 := storeSubArena m0 65536 7 69672 69664 69664
  let m2 := storeSubArena m1 69672 7 73808 70800 73800
  let m3 := storeSubArena m2 73808 7 0 77436 77936
  { demoNormalInit.1 with mem := m3 }

/-- The descriptor of `demoSearchHeap` with three sub-arenas retrieved and the
list of `demoBestFitWorld` under tag 7. -/
def demoBestFitHeap : TaggedHeap :=
  let pool := { demoSearchHeap.pool with count := 3, lastFilled := 2 }
  { demoSearchHeap with pool := pool, arenas := demoSearchHeap.arenas.set 7 65536 }

/-- The fixed-size tagged heap over the buffer at 4096 whose size is
`calcTaggedHeapSize(4096, 8, 1)`: world, arena, heap descriptor. -/
def demoFixedHeap : Option (World × MemoryArena × TaggedHeap × Nat) :=
  taggedFixedSizeBootstrap demoOS demoWorld 4096 4096 (calcTaggedHeapSize 4096 8 1)
    FlagTaggedHeapNormal

/-- The state after scenario S5 up to the free, on `demoHeap`. -/
def demoS5State : (World × MemoryArena × TaggedHeap) × List Nat :=
  (runHeap demoOS 8 demoS5Ops demoHeapStart).getD demoHeapStart

/-- A configuration as `demoInfo` with commits of 8 KiB. -/
def demoSmallInfo : MemoryInfo :=
  { totalMemory := 67108864, commitSize := 8192, pageSize := 4096, commitFlags := 3 }

/-- The arena made by `arenaInit` over `demoOS` with the Extended flag and
`demoSmallInfo`: start and head at 65536, 8 KiB committed. -/
def demoExtendedInit : World × MemoryArena :=
  arenaInit demoOS demoWorld MemoryArena.zeroed demoSmallInfo FlagArenaExtended

/-- A tagged heap with 4096-byte sub-arenas made by `taggedInit` over
`demoExtendedInit`; the capacity of its pool is 1. -/
def demoExtendedHeap : TaggedHeap :=
  taggedInit TaggedHeap.zeroed demoExtendedInit.2 4096 FlagTaggedHeapNormal

/-- The start of a scripted scenario on `demoExtendedHeap`. -/
def demoExtendedStart : (World × MemoryArena × TaggedHeap) × List Nat :=
  ((demoExtendedInit.1, demoExtendedInit.2, demoExtendedHeap), [])

/-- A configuration as `demoInfo` with commits of one page. -/
def demoPageInfo : MemoryInfo :=
  { totalMemory := 67108864, commitSize := 4096, pageSize := 4096, commitFlags := 3 }

/-- The arena made by `arenaInit` over `demoOS` with the Stack flag and
`demoPageInfo`: start and head at 65536, one page committed. -/
def demoStackPageInit : World × MemoryArena :=
  arenaInit demoOS demoWorld MemoryArena.zeroed demoPageInfo FlagArenaStack

/-- A tagged heap with 2688-byte sub-arenas (slots of 2728 bytes) and the
NoZeroMemory flag, made by `taggedInit` over `demoStackPageInit`. -/
def demoStackHeap : TaggedHeap :=
  taggedInit TaggedHeap.zeroed demoStackPageInit.2 2688 FlagTaggedHeapNoZeroMemory

/-- The start of a scripted scenario on `demoStackHeap`. -/
def demoStackHeapStart : (World × MemoryArena × TaggedHeap) × List Nat :=
  ((demoStackPageInit.1, demoStackPageInit.2, demoStackHeap), [])

/-- Five allocations under the tags 0 to 4, each from a new sub-arena. -/
def demoStackHeapOps : List HeapOp :=
  [HeapOp.alloc 0 2000, HeapOp.alloc 1 2000, HeapOp.alloc 2 100, HeapOp.alloc 3 100,
    HeapOp.alloc 4 100]

/-- A tagged heap with 3240-byte sub-arenas (slots of 3280 bytes) and the
NoZeroMemory flag, made by `taggedInit` over `demoStackPageInit`. -/
def demoStackHeapWide : TaggedHeap :=
  taggedInit TaggedHeap.zeroed demoStackPageInit.2 3240 FlagTaggedHeapNoZeroMemory

/-- The start of a scripted scenario on `demoStackHeapWide`. -/
def demoStackHeapWideStart : (World × MemoryArena × TaggedHeap) × List Nat :=
  ((demoStackPageInit.1, demoStackPageInit.2, demoStackHeapWide), [])

/-- One allocation of 3000 bytes under each of the tags 0 to 6. -/
def demoStackHeapWideOps : List HeapOp :=
  [HeapOp.alloc 0 3000, HeapOp.alloc 1 3000, HeapOp.alloc 2 3000, HeapOp.alloc 3 3000,
    HeapOp.alloc 4 3000, HeapOp.alloc 5 3000, HeapOp.alloc 6 3000]

/-! ## Theorems -/

/-! ### Word arithmetic and `alignTo` -/

theorem wsub_of_le (a b : Nat) (hb : b ≤ a) (ha : a < 2 ^ 64) : wsub a b = a - b := by
  unfold wsub
  omega

theorem wadd_of_lt (a b : Nat) (h : a + b < 2 ^ 64) : wadd a b = a + b := by
  unfold wadd
  omega

theorem pow2_lt_word (k : Nat) (hk : k < 64) : 2 ^ k < 2 ^ 64 :=
  Nat.pow_lt_pow_right (by decide) hk

/-- With a power of two below `2^64` as alignment, `alignTo` tests `x mod 2^k`
and adds what is missing to the next multiple (in 64-bit arithmetic). -/
theorem alignTo_pow2 (x k : Nat) (hk : k < 64) :
    alignTo x (2 ^ k) = if x % 2 ^ k = 0 then x else wadd x (2 ^ k - x % 2 ^ k) := by
  have hA : 2 ^ k < 2 ^ 64 := pow2_lt_word k hk
  have hpos : 0 < 2 ^ k := Nat.two_pow_pos k
  have hmod : x % 2 ^ k < 2 ^ k := Nat.mod_lt _ hpos
  unfold alignTo
  simp only
  rw [wsub_of_le (2 ^ k) 1 hpos hA, Nat.and_pow_two_sub_one_eq_mod,
    wsub_of_le (2 ^ k) (x % 2 ^ k) (Nat.le_of_lt hmod) hA]
  by_cases h : x % 2 ^ k = 0 <;> simp [h]

/-- What `alignTo` gives for a power-of-two alignment when nothing wraps: a
multiple of the alignment in `[x, x + 2^k)`. -/
theorem alignTo_pow2_spec (x k : Nat) (hk : k < 64) (hx : x + 2 ^ k ≤ 2 ^ 64) :
    x ≤ alignTo x (2 ^ k) ∧ alignTo x (2 ^ k) < x + 2 ^ k ∧ 2 ^ k ∣ alignTo x (2 ^ k) := by
  have hpos : 0 < 2 ^ k := Nat.two_pow_pos k
  have hmod : x % 2 ^ k < 2 ^ k := Nat.mod_lt _ hpos
  have hdiv : 2 ^ k * (x / 2 ^ k) + x % 2 ^ k = x := Nat.div_add_mod x (2 ^ k)
  rw [alignTo_pow2 x k hk]
  by_cases h : x % 2 ^ k = 0
  · simp only [h, if_true]
    exact ⟨Nat.le_refl _, by omega, Nat.dvd_of_mod_eq_zero h⟩
  · simp only [h, if_false]
    rw [wadd_of_lt _ _ (by omega)]
    refine ⟨by omega, by omega, ?_⟩
    have : x + (2 ^ k - x % 2 ^ k) = 2 ^ k * (x / 2 ^ k + 1) := by
      rw [Nat.mul_add, Nat.mul_one]
      omega
    rw [this]
    exact Nat.dvd_mul_right _ _

/-- The result of `alignTo` for a power-of-two alignment is the least multiple
at or above `x`: it is below every other one. -/
theorem alignTo_pow2_le_of_dvd (x y k : Nat) (hk : k < 64) (hx : x + 2 ^ k ≤ 2 ^ 64)
    (hy : 2 ^ k ∣ y) (hxy : x ≤ y) : alignTo x (2 ^ k) ≤ y := by
  obtain ⟨_, hlt, hdvd⟩ := alignTo_pow2_spec x k hk hx
  obtain ⟨m, hm⟩ := hdvd
  obtain ⟨n, hn⟩ := hy
  by_contra hcon
  have hnm : n < m := by
    apply Nat.lt_of_mul_lt_mul_left (a := 2 ^ k)
    omega
  have hstep : 2 ^ k * (n + 1) ≤ 2 ^ k * m := Nat.mul_le_mul_left _ hnm
  rw [Nat.mul_add, Nat.mul_one] at hstep
  omega

theorem alignTo_of_mod_eight (x : Nat) (h : x % 8 = 0) : alignTo x 8 = x := by
  have := alignTo_pow2 x 3 (by decide)
  simpa [h] using this

/-- C1: on an arena without the Stack and Extended flags, when
`alignTo(head + size, align) <= end` (no growth needed), `arenaPush` returns the
old head and leaves the arena as it was except for
`head = alignTo(old head + size, align)`; start, end and the world are unchanged. -/
theorem arenaPush_no_growth (os : OS) (w : World) (arena : MemoryArena) (size : Nat)
    (hstack : arena.flags &&& FlagArenaStack = 0)
    (hext : arena.flags &&& FlagArenaExtended = 0)
    (hfit : alignTo (wadd arena.head size) arena.align ≤ arena.end_) :
    arenaPush os w arena size =
      (w, { arena with head := alignTo (wadd arena.head size) arena.align }, arena.head) := by
  have hnot : ¬ alignTo (wadd arena.head size) arena.align > arena.end_ := Nat.not_lt.mpr hfit
  simp [arenaPush, arenaPushEx, arenaPushEx.size, arenaPushEx.finish, hstack, hext, hnot]

theorem arenaPush_no_growth_witness :
    demoFixedArena.flags &&& FlagArenaStack = 0 ∧
    demoFixedArena.flags &&& FlagArenaExtended = 0 ∧
    alignTo (wadd demoFixedArena.head 100) demoFixedArena.align ≤ demoFixedArena.end_ ∧
    arenaPush demoOS demoWorld demoFixedArena 100 =
      (demoWorld,
        { demoFixedArena with head := alignTo (wadd demoFixedArena.head 100) demoFixedArena.align },
        demoFixedArena.head) :=
  ⟨by decide, by decide, by decide,
    arenaPush_no_growth demoOS demoWorld demoFixedArena 100 (by decide) (by decide) (by decide)⟩

/-- The pointer returned on the path of `arenaPushEx` that allocates is not null
when the head is an address other than null that is not within 8 bytes of the
top of the address space. -/
theorem arenaPushEx.finish_ret_ne_zero (w : World) (arena : MemoryArena)
    (oldHead newHead extended : Nat) (h0 : 0 < oldHead) (h1 : oldHead + 8 < 2 ^ 64) :
    (arenaPushEx.finish w arena oldHead newHead extended).2.2 ≠ 0 := by
  unfold arenaPushEx.finish
  by_cases hx : arena.flags &&& FlagArenaExtended = 0
  · simp [hx]; omega
  · simp [hx, wadd, sizeofExtendedInfo]; omega

/-- A null return from a real head: on an arena whose head is a real address
(not null, not within 8 bytes of the top of the address space) a null return of
`arenaPushEx` comes from one of the two failure returns, a fixed-size arena
without room or a failed growth commit, and then the arena descriptor is equal
to its value before the call, and so is the memory. -/
theorem arenaPushEx_null_unchanged (os : OS) (w : World) (arena : MemoryArena)
    (size extended : Nat) (h0 : 0 < arena.head) (h1 : arena.head + 8 < 2 ^ 64)
    (hnull : (arenaPushEx os w arena size extended).2.2 = 0) :
    (arenaPushEx os w arena size extended).2.1 = arena ∧
    (arenaPushEx os w arena size extended).1.mem = w.mem ∧
    alignTo (wadd arena.head (arenaPushEx.size arena size)) arena.align > arena.end_ ∧
    (arena.flags &&& FlagArenaFixedSize ≠ 0 ∨
      os.commitMemory w.log arena.end_
        (alignTo (arenaPushEx.size arena size) arena.info.commitSize)
        arena.info.commitFlags = 0) := by
  unfold arenaPushEx at hnull ⊢
  simp only at hnull ⊢
  split_ifs at hnull ⊢ with hgrow hfixed hcommit
  · exact ⟨rfl, rfl, hgrow, Or.inl hfixed⟩
  · refine ⟨rfl, ?_, hgrow, Or.inr ?_⟩
    · unfold wbi__commitMemory at hcommit ⊢
      simp only at hcommit ⊢
      split_ifs at hcommit ⊢ with hret
      · exact absurd hcommit hret
      · rfl
    · unfold wbi__commitMemory at hcommit
      simp only at hcommit
      split_ifs at hcommit with hret
      · exact absurd hcommit hret
      · exact not_not.mp hret
  · exact absurd hnull (arenaPushEx.finish_ret_ne_zero _ _ _ _ _ h0 h1)
  · exact absurd hnull (arenaPushEx.finish_ret_ne_zero _ _ _ _ _ h0 h1)

theorem arenaPushEx_null_unchanged_witness :
    0 < demoFixedArena.head ∧ demoFixedArena.head + 8 < 2 ^ 64 ∧
    (arenaPushEx demoOS demoWorld demoFixedArena 5000 0).2.2 = 0 ∧
    (arenaPushEx demoOS demoWorld demoFixedArena 5000 0).2.1 = demoFixedArena ∧
    (arenaPushEx demoOS demoWorld demoFixedArena 5000 0).1.mem = demoWorld.mem ∧
    alignTo (wadd demoFixedArena.head (arenaPushEx.size demoFixedArena 5000))
      demoFixedArena.align > demoFixedArena.end_ ∧
    (demoFixedArena.flags &&& FlagArenaFixedSize ≠ 0 ∨
      demoOS.commitMemory demoWorld.log demoFixedArena.end_
        (alignTo (arenaPushEx.size demoFixedArena 5000) demoFixedArena.info.commitSize)
        demoFixedArena.info.commitFlags = 0) :=
  ⟨by decide, by decide, by decide,
    arenaPushEx_null_unchanged demoOS demoWorld demoFixedArena 5000 0
      (by decide) (by decide) (by decide)⟩

/-- C2 as stated fails: on the fixed-size arena over `[4096, 8192)` after one
`arenaStartTemp` the head is null; `arenaPushEx(arena, 100, 0)` then takes
neither failure return, reports nothing, moves head to 104 and returns the old
head, null. -/
theorem arenaPushEx_null_head_moved :
    (arenaStartTemp demoFixedArena).head = 0 ∧
    (arenaPushEx demoOS demoWorld (arenaStartTemp demoFixedArena) 100 0).2.2 = 0 ∧
    (arenaPushEx demoOS demoWorld (arenaStartTemp demoFixedArena) 100 0).2.1.head = 104 ∧
    (arenaPushEx demoOS demoWorld (arenaStartTemp demoFixedArena) 100 0).2.1 ≠
      arenaStartTemp demoFixedArena ∧
    (arenaPushEx demoOS demoWorld (arenaStartTemp demoFixedArena) 100 0).1.reports = [] := by
  refine ⟨by decide, by decide, by decide, by decide, by decide⟩

/-- C2 amended: when `arenaPushEx` takes one of its two failure returns, that
is when the new head would pass `end` and either the arena is fixed-size or the
growth commit fails, it returns null and the arena descriptor is equal to its
value before the call, as is the memory.  No condition on the arena. -/
theorem arenaPushEx_failure_unchanged (os : OS) (w : World) (arena : MemoryArena)
    (size extended : Nat)
    (hgrow : alignTo (wadd arena.head (arenaPushEx.size arena size)) arena.align > arena.end_)
    (hcause : arena.flags &&& FlagArenaFixedSize ≠ 0 ∨
      os.commitMemory w.log arena.end_
        (alignTo (arenaPushEx.size arena size) arena.info.commitSize)
        arena.info.commitFlags = 0) :
    (arenaPushEx os w arena size extended).2.2 = 0 ∧
    (arenaPushEx os w arena size extended).2.1 = arena ∧
    (arenaPushEx os w arena size extended).1.mem = w.mem := by
  unfold arenaPushEx
  simp only [hgrow, if_true]
  by_cases hfixed : arena.flags &&& FlagArenaFixedSize ≠ 0
  · rw [if_pos hfixed]
    exact ⟨rfl, rfl, rfl⟩
  · rw [if_neg hfixed]
    have hc := hcause.resolve_left hfixed
    have hcm : wbi__commitMemory os w arena.end_
        (alignTo (arenaPushEx.size arena size) arena.info.commitSize) arena.info.commitFlags =
        (World.mk w.mem (w.log ++ [OSCall.commitMemory arena.end_
          (alignTo (arenaPushEx.size arena size) arena.info.commitSize)
          arena.info.commitFlags]) w.reports, 0) := by
      unfold wbi__commitMemory
      simp only [hc, ne_eq, not_true_eq_false, if_false]
    rw [hcm]
    exact ⟨rfl, rfl, rfl⟩

theorem arenaPushEx_failure_unchanged_witness :
    (arenaPushEx demoOS demoWorld demoFixedArena 5000 0).2.2 = 0 ∧
    (arenaPushEx demoOS demoWorld demoFixedArena 5000 0).2.1 = demoFixedArena ∧
    (arenaPushEx demoOS demoWorld demoFixedArena 5000 0).1.mem = demoWorld.mem :=
  arenaPushEx_failure_unchanged demoOS demoWorld demoFixedArena 5000 0 (by decide)
    (Or.inl (by decide))

/-- C3: the bounds `start <= head <= end` hold on the fixed-size arena over
`[4096, 8192)`, and one `arenaStartTemp` on it sets head to 0, below start:
`info.pageSize` is 0 on a fixed-size arena, and `alignTo(head, 0)` is 0. -/
theorem arenaStartTemp_fixed_breaks_bounds :
    (demoFixedArena.start ≤ demoFixedArena.head ∧ demoFixedArena.head ≤ demoFixedArena.end_) ∧
    (arenaStartTemp demoFixedArena).start = 4096 ∧
    (arenaStartTemp demoFixedArena).head = 0 ∧
    ¬ ((arenaStartTemp demoFixedArena).start ≤ (arenaStartTemp demoFixedArena).head) := by
  decide

/-- C6: on the Stack arena fresh from `arenaInit` (head = start = 65536,
NoZeroMemory unset), after `p = arenaPush(arena, 100)`, writing 0xAA over
`[p, p+100)` and one `arenaPop`, the bytes at `p` and at `p + 99` are still
0xAA: the pop takes the `newHead <= start` return, which does not zero.  The
head is back at `p` and the next `arenaPush(arena, 100)` returns `p`. -/
theorem arenaPop_at_start_leaves_bytes :
    demoStackInit.2.flags &&& FlagArenaStack ≠ 0 ∧
    demoStackInit.2.flags &&& FlagArenaNoZeroMemory = 0 ∧
    demoStackInit.2.head = demoStackInit.2.start ∧
    (pushWritePop demoOS demoStackInit.1 demoStackInit.2 100 170).1 = 65536 ∧
    (pushWritePop demoOS demoStackInit.1 demoStackInit.2 100 170).2.1.mem 65536 = 170 ∧
    (pushWritePop demoOS demoStackInit.1 demoStackInit.2 100 170).2.1.mem (65536 + 99) = 170 ∧
    (pushWritePop demoOS demoStackInit.1 demoStackInit.2 100 170).2.2.head = 65536 ∧
    (arenaPush demoOS (pushWritePop demoOS demoStackInit.1 demoStackInit.2 100 170).2.1
      (pushWritePop demoOS demoStackInit.1 demoStackInit.2 100 170).2.2 100).2.2 = 65536 := by
  decide

/-- C7 as stated fails: on an arena whose head is 24 bytes past start,
`arenaClear` leaves head where it was, not at start. -/
theorem arenaClear_head_not_reset :
    ¬ ((arenaClear demoOS demoWorld demoUsedArena).2.start = demoUsedArena.start ∧
       (arenaClear demoOS demoWorld demoUsedArena).2.end_ = demoUsedArena.end_ ∧
       (arenaClear demoOS demoWorld demoUsedArena).2.info = demoUsedArena.info ∧
       (arenaClear demoOS demoWorld demoUsedArena).2.flags = demoUsedArena.flags ∧
       (arenaClear demoOS demoWorld demoUsedArena).2.head =
         (arenaClear demoOS demoWorld demoUsedArena).2.start) := by
  decide

/-- C7 amended: `arenaClear` leaves every field of the arena descriptor
unchanged (start, end, info and flags, and head too); it decommits and then
commits `[start, end)`, and reports nothing. -/
theorem arenaClear_descriptor_unchanged (os : OS) (w : World) (arena : MemoryArena) :
    (arenaClear os w arena).2 = arena ∧
    (arenaClear os w arena).1.log = w.log ++
      [OSCall.decommitMemory arena.start (wsub arena.end_ arena.start),
       OSCall.commitMemory arena.start (wsub arena.end_ arena.start) arena.info.commitFlags] ∧
    (arenaClear os w arena).1.reports = w.reports := by
  unfold arenaClear wbi__commitMemory wbi__decommitMemory
  simp only
  split_ifs <;> simp

/-- C8 as stated fails: `arenaInit` with `FlagArenaFixedSize` on a descriptor
that holds an arena does not return that descriptor unchanged. -/
theorem arenaInit_fixed_flag_changes_descriptor :
    FlagArenaFixedSize &&& FlagArenaFixedSize ≠ 0 ∧
    (arenaInit demoOS demoWorld demoUsedArena demoInfo FlagArenaFixedSize).2 ≠ demoUsedArena := by
  decide

/-- C8 amended: for every flags value containing `FlagArenaFixedSize`,
`arenaInit` reports the error and returns with every field of the descriptor
zeroed (the default build zeroes the descriptor before the flag check); it makes
no OS call and leaves memory alone. -/
theorem arenaInit_fixed_flag_zeroes (os : OS) (w : World) (arena : MemoryArena)
    (info : MemoryInfo) (flags : Nat) (hfixed : flags &&& FlagArenaFixedSize ≠ 0) :
    (arenaInit os w arena info flags).2 = MemoryArena.zeroed ∧
    (arenaInit os w arena info flags).1.reports = w.reports ++ [Report.arenaInitFixedSize] ∧
    (arenaInit os w arena info flags).1.log = w.log ∧
    (arenaInit os w arena info flags).1.mem = w.mem := by
  simp [arenaInit, hfixed, World.report]

theorem arenaInit_fixed_flag_zeroes_witness :
    (3 : Nat) &&& FlagArenaFixedSize ≠ 0 ∧
    (arenaInit demoOS demoWorld demoUsedArena demoInfo 3).2 = MemoryArena.zeroed ∧
    (arenaInit demoOS demoWorld demoUsedArena demoInfo 3).1.reports =
      demoWorld.reports ++ [Report.arenaInitFixedSize] ∧
    (arenaInit demoOS demoWorld demoUsedArena demoInfo 3).1.log = demoWorld.log ∧
    (arenaInit demoOS demoWorld demoUsedArena demoInfo 3).1.mem = demoWorld.mem :=
  ⟨by decide, arenaInit_fixed_flag_zeroes demoOS demoWorld demoUsedArena demoInfo 3 (by decide)⟩

/-- C9: on the fixed-size arena over `[4096, 8192)` the first `arenaStartTemp`
leaves `tempStart` null (`alignTo(4096, 0) = 0`) with `tempHead = 4096` and
`head = 0`; the second call runs again and overwrites `tempHead` with 0, so it
does not leave the arena as the first call left it. -/
theorem arenaStartTemp_twice_fixed :
    (arenaStartTemp demoFixedArena).tempStart = 0 ∧
    (arenaStartTemp demoFixedArena).tempHead = 4096 ∧
    (arenaStartTemp (arenaStartTemp demoFixedArena)).tempHead = 0 ∧
    arenaStartTemp (arenaStartTemp demoFixedArena) ≠ arenaStartTemp demoFixedArena := by
  decide

/-- C10: on the fixed-size arena over `[4096, 8192)` (no temp region active),
`arenaStartTemp`, no push, then `arenaEndTemp` leaves head at 0 instead of 4096
and `tempHead` at 4096 instead of null: `arenaEndTemp` sees `tempStart` null
and returns at once. -/
theorem arenaEndTemp_after_start_fixed :
    demoFixedArena.tempStart = 0 ∧ demoFixedArena.head = 4096 ∧
    (arenaEndTemp demoOS demoWorld (arenaStartTemp demoFixedArena)).2.head = 0 ∧
    (arenaEndTemp demoOS demoWorld (arenaStartTemp demoFixedArena)).2.tempHead = 4096 := by
  decide

/-! ### Scenario S1 -/

theorem wbi__commitMemory_ret (os : OS) (w : World) (addr size flags : Nat) :
    (wbi__commitMemory os w addr size flags).2 = os.commitMemory w.log addr size flags := by
  unfold wbi__commitMemory
  by_cases h : os.commitMemory w.log addr size flags = 0 <;> simp [h]

/-- One `arenaPush(arena, 4096)` on a normal arena with `align = 8`, 1 MiB
commits and an 8-aligned head, when commits of non-null addresses succeed:
head advances by 4096, and end by 1 MiB exactly when the new head would pass it. -/
theorem arenaPush_page_step (os : OS) (w : World) (a : MemoryArena)
    (hcommit : ∀ log addr size flags, addr ≠ 0 → os.commitMemory log addr size flags ≠ 0)
    (hflags : a.flags = FlagArenaNormal) (halign : a.align = 8)
    (hcs : a.info.commitSize = 1048576) (hmod : a.head % 8 = 0)
    (hend : a.end_ ≠ 0) (hh : a.head + 4096 < 2 ^ 64) (he : a.end_ + 1048576 < 2 ^ 64) :
    (arenaPush os w a 4096).2.1 =
      { a with head := a.head + 4096,
               end_ := if a.head + 4096 > a.end_ then a.end_ + 1048576 else a.end_ } := by
  have hsize : arenaPushEx.size a 4096 = 4096 := by
    simp [arenaPushEx.size, hflags, FlagArenaNormal]
  have hnew : alignTo (wadd a.head 4096) a.align = a.head + 4096 := by
    rw [halign, wadd_of_lt _ _ hh]
    exact alignTo_of_mod_eight _ (by omega)
  have hexp : alignTo 4096 a.info.commitSize = 1048576 := by
    rw [hcs]
    decide
  have hfin : ∀ (w1 : World) (b : MemoryArena) (o n e : Nat), b.flags = FlagArenaNormal →
      (arenaPushEx.finish w1 b o n e).2.1 = { b with head := n } := by
    intro w1 b o n e hb
    simp [arenaPushEx.finish, hb, FlagArenaNormal]
  unfold arenaPush arenaPushEx
  simp only [hsize, hnew, hexp]
  by_cases hg : a.head + 4096 > a.end_
  · have hnf : ¬ a.flags &&& FlagArenaFixedSize ≠ 0 := by
      simp [hflags, FlagArenaNormal]
    have hc : (wbi__commitMemory os w a.end_ 1048576 a.info.commitFlags).2 ≠ 0 := by
      rw [wbi__commitMemory_ret]
      exact hcommit _ _ _ _ hend
    simp only [hg, hnf, hc, if_true, if_false]
    rw [hfin _ _ _ _ _ (by exact hflags), wadd_of_lt _ _ he]
  · simp only [hg, if_false]
    rw [hfin _ _ _ _ _ hflags]

/-- The arena that `arenaInit` makes with normal flags when the reservation and
the first commit succeed. -/
theorem arenaInit_normal (os : OS) (w : World) (arena : MemoryArena) (info : MemoryInfo)
    (hcommit : ∀ log addr size flags, addr ≠ 0 → os.commitMemory log addr size flags ≠ 0)
    (hres : os.allocateVirtualSpace w.log info.totalMemory ≠ 0)
    (hrange : os.allocateVirtualSpace w.log info.totalMemory + info.commitSize < 2 ^ 64) :
    (arenaInit os w arena info FlagArenaNormal).2 =
      { name := some "arena", start := os.allocateVirtualSpace w.log info.totalMemory,
        head := os.allocateVirtualSpace w.log info.totalMemory,
        end_ := os.allocateVirtualSpace w.log info.totalMemory + info.commitSize,
        tempStart := 0, tempHead := 0, info := info, align := 8, flags := FlagArenaNormal } := by
  have hc : (wbi__commitMemory os (wbi__allocateVirtualSpace os w info.totalMemory).1
      (os.allocateVirtualSpace w.log info.totalMemory) info.commitSize info.commitFlags).2 ≠ 0 := by
    rw [wbi__commitMemory_ret]
    exact hcommit _ _ _ _ hres
  unfold arenaInit
  simp only [wbi__allocateVirtualSpace] at hc ⊢
  simp [FlagArenaNormal, FlagArenaFixedSize, hc, wadd_of_lt _ _ hrange, MemoryArena.zeroed]

/-- The arena after `n <= 512` pushes of 4096 bytes in scenario S1. -/
theorem pushN_S1_invariant (os : OS) (s : World × MemoryArena) (base : Nat)
    (hcommit : ∀ log addr size flags, addr ≠ 0 → os.commitMemory log addr size flags ≠ 0)
    (hflags : s.2.flags = FlagArenaNormal) (halign : s.2.align = 8)
    (hcs : s.2.info.commitSize = 1048576) (hstart : s.2.start = base)
    (hhead : s.2.head = base) (hend : s.2.end_ = base + 1048576)
    (hbase : base % 8 = 0) (hrange : base + 67108864 ≤ 2 ^ 64) (n : Nat) (hn : n ≤ 512) :
    (pushN os 4096 n s).2 =
      { s.2 with head := base + 4096 * n,
                 end_ := if n ≤ 256 then base + 1048576 else base + 2097152 } := by
  induction n with
  | zero =>
    cases s with
    | mk w a =>
      cases a
      simp only [pushN] at *
      simp [hhead, hend]
  | succ n ih =>
    have ihn := ih (by omega)
    have hstep := arenaPush_page_step os (pushN os 4096 n s).1 (pushN os 4096 n s).2 hcommit
      (by rw [ihn]; exact hflags) (by rw [ihn]; exact halign) (by rw [ihn]; exact hcs)
      (by rw [ihn]; simp only; omega)
      (by rw [ihn]; simp only; split_ifs <;> omega)
      (by rw [ihn]; simp only; omega)
      (by rw [ihn]; simp only; split_ifs <;> omega)
    simp only [pushN]
    rw [hstep, ihn]
    simp only [MemoryArena.mk.injEq, true_and, and_true]
    constructor
    · omega
    · split_ifs <;> omega

/-- C4 (scenario S1): `arenaInit` with 64 MiB of address space, 1 MiB commits
and normal flags, over an OS whose reservation is a non-null 8-aligned address
with the 64 MiB below `2^64` and whose commits succeed; after 512 calls
`arenaPush(arena, 4096)`: `head = start + 2 MiB` and `end = start + 2 MiB`. -/
theorem scenario_S1_arena_growth (os : OS) (w : World) (arena : MemoryArena)
    (pageSize commitFlags : Nat)
    (hcommit : ∀ log addr size flags, addr ≠ 0 → os.commitMemory log addr size flags ≠ 0)
    (hres : os.allocateVirtualSpace w.log 67108864 ≠ 0)
    (haligned : os.allocateVirtualSpace w.log 67108864 % 8 = 0)
    (hrange : os.allocateVirtualSpace w.log 67108864 + 67108864 ≤ 2 ^ 64) :
    (pushN os 4096 512 (arenaInit os w arena
        { totalMemory := 67108864, commitSize := 1048576, pageSize := pageSize,
          commitFlags := commitFlags } FlagArenaNormal)).2.head
      = (pushN os 4096 512 (arenaInit os w arena
        { totalMemory := 67108864, commitSize := 1048576, pageSize := pageSize,
          commitFlags := commitFlags } FlagArenaNormal)).2.start + 2097152 ∧
    (pushN os 4096 512 (arenaInit os w arena
        { totalMemory := 67108864, commitSize := 1048576, pageSize := pageSize,
          commitFlags := commitFlags } FlagArenaNormal)).2.end_
      = (pushN os 4096 512 (arenaInit os w arena
        { totalMemory := 67108864, commitSize := 1048576, pageSize := pageSize,
          commitFlags := commitFlags } FlagArenaNormal)).2.start + 2097152 := by
  have hinit := arenaInit_normal os w arena
    { totalMemory := 67108864, commitSize := 1048576, pageSize := pageSize,
      commitFlags := commitFlags } hcommit hres (by simp only; omega)
  have hinv := pushN_S1_invariant os (arenaInit os w arena
    { totalMemory := 67108864, commitSize := 1048576, pageSize := pageSize,
      commitFlags := commitFlags } FlagArenaNormal)
    (os.allocateVirtualSpace w.log 67108864) hcommit
    (by rw [hinit]) (by rw [hinit]) (by rw [hinit]) (by rw [hinit]) (by rw [hinit])
    (by rw [hinit]) haligned hrange 512 (Nat.le_refl _)
  rw [hinv, hinit]
  simp

theorem scenario_S1_arena_growth_witness :
    (∀ log addr size flags, addr ≠ 0 → demoOS.commitMemory log addr size flags ≠ 0) ∧
    demoOS.allocateVirtualSpace demoWorld.log 67108864 ≠ 0 ∧
    demoOS.allocateVirtualSpace demoWorld.log 67108864 % 8 = 0 ∧
    demoOS.allocateVirtualSpace demoWorld.log 67108864 + 67108864 ≤ 2 ^ 64 ∧
    (pushN demoOS 4096 512 (arenaInit demoOS demoWorld MemoryArena.zeroed
        { totalMemory := 67108864, commitSize := 1048576, pageSize := 4096,
          commitFlags := 3 } FlagArenaNormal)).2.head
      = (pushN demoOS 4096 512 (arenaInit demoOS demoWorld MemoryArena.zeroed
        { totalMemory := 67108864, commitSize := 1048576, pageSize := 4096,
          commitFlags := 3 } FlagArenaNormal)).2.start + 2097152 ∧
    (pushN demoOS 4096 512 (arenaInit demoOS demoWorld MemoryArena.zeroed
        { totalMemory := 67108864, commitSize := 1048576, pageSize := 4096,
          commitFlags := 3 } FlagArenaNormal)).2.end_
      = (pushN demoOS 4096 512 (arenaInit demoOS demoWorld MemoryArena.zeroed
        { totalMemory := 67108864, commitSize := 1048576, pageSize := 4096,
          commitFlags := 3 } FlagArenaNormal)).2.start + 2097152 :=
  ⟨fun _ _ _ _ h => h, by decide, by decide, by decide,
    scenario_S1_arena_growth demoOS demoWorld MemoryArena.zeroed 4096 3
      (fun _ _ _ _ h => h) (by decide) (by decide) (by decide)⟩

/-! ### Memory -/

theorem read64_congr (m m2 : Mem) (a : Nat) (h : ∀ x, a ≤ x → x < a + 8 → m2 x = m x) :
    read64 m2 a = read64 m a := by
  have h0 := h a (by omega) (by omega)
  have h1 := h (a + 1) (by omega) (by omega)
  have h2 := h (a + 2) (by omega) (by omega)
  have h3 := h (a + 3) (by omega) (by omega)
  have h4 := h (a + 4) (by omega) (by omega)
  have h5 := h (a + 5) (by omega) (by omega)
  have h6 := h (a + 6) (by omega) (by omega)
  have h7 := h (a + 7) (by omega) (by omega)
  unfold read64
  rw [h0, h1, h2, h3, h4, h5, h6, h7]

theorem read64_write64 (m : Mem) (a v : Nat) (hv : v < 2 ^ 64) :
    read64 (write64 m a v) a = v := by
  unfold read64 write64
  simp
  omega

theorem write64_outside (m : Mem) (a v x : Nat) (h : x < a ∨ a + 8 ≤ x) :
    write64 m a v x = m x := by
  unfold write64
  have : ¬ (a ≤ x ∧ x < a + 8) := by omega
  simp [this]

theorem memset_outside (m : Mem) (p v n x : Nat) (h : x < p ∨ p + n ≤ x) :
    memset m p v n x = m x := by
  unfold memset
  have : ¬ (p ≤ x ∧ x < p + n) := by omega
  simp [this]

theorem wbi__commitMemory_mem_below (os : OS) (w : World) (addr size flags x : Nat)
    (hx : x < addr) : (wbi__commitMemory os w addr size flags).1.mem x = w.mem x := by
  unfold wbi__commitMemory
  by_cases h : os.commitMemory w.log addr size flags = 0
  · simp [h]
  · simp only [ne_eq, h, not_false_eq_true, if_true]
    exact memset_outside _ _ _ _ _ (Or.inl hx)

/-! ### Stack mode: one push, one pop -/

theorem arenaPushEx.size_stack (a : MemoryArena) (size : Nat)
    (hstack : a.flags &&& FlagArenaStack ≠ 0) (hs : size + 16 < 2 ^ 64) :
    arenaPushEx.size a size =
      size + 8 + (if a.flags &&& FlagArenaExtended ≠ 0 then 8 else 0) := by
  unfold arenaPushEx.size
  simp only [hstack, if_true, ne_eq, not_false_eq_true]
  unfold wadd sizeofStackPtr sizeofExtendedInfo
  split_ifs <;> omega

/-- Lines 905-923 on a Stack arena: the descriptor only changes its head, memory
below the old head is untouched, and the word just below the new head holds the
old head. -/
theorem arenaPushEx.finish_stack (w : World) (a : MemoryArena) (o n e : Nat)
    (hstack : a.flags &&& FlagArenaStack ≠ 0) (ho : o + 8 ≤ n)
    (hext : a.flags &&& FlagArenaExtended ≠ 0 → o + 16 ≤ n) (hn : n < 2 ^ 64) :
    (arenaPushEx.finish w a o n e).2.1 = { a with head := n } ∧
    (∀ x, x < o → (arenaPushEx.finish w a o n e).1.mem x = w.mem x) ∧
    read64 (arenaPushEx.finish w a o n e).1.mem (n - 8) = o := by
  have hsub : wsub n sizeofStackPtr = n - 8 := wsub_of_le n 8 (by omega) hn
  unfold arenaPushEx.finish
  simp only [hstack, if_true, ne_eq, not_false_eq_true, hsub]
  refine ⟨trivial, ?_, ?_⟩
  · intro x hx
    by_cases hx2 : a.flags &&& FlagArenaExtended = 0
    · simp only [hx2, not_true_eq_false, if_false]
      exact write64_outside _ _ _ _ (by omega)
    · simp only [hx2, not_false_eq_true, if_true]
      rw [write64_outside _ _ _ _ (by omega), write64_outside _ _ _ _ (by omega)]
  · by_cases hx2 : a.flags &&& FlagArenaExtended = 0
    · simp only [hx2, not_true_eq_false, if_false]
      exact read64_write64 _ _ _ (by omega)
    · simp only [hx2, not_false_eq_true, if_true]
      have h16 := hext hx2
      rw [read64_congr (write64 w.mem (n - 8) o) _ (n - 8)
        (fun x h1 h2 => write64_outside _ _ _ _ (by omega))]
      exact read64_write64 _ _ _ (by omega)

/-- One `arenaPushEx` that does not return null, on a consistent Stack arena and
with no address near `2^63`: the arena stays consistent, head moves up by at
least 8, end by at most the budget of the push, memory below the old head is
untouched, and the word just below the new head holds the old head. -/
theorem arenaPushEx_stack_step (os : OS) (w : World) (a : MemoryArena) (size ext : Nat)
    (hok : StackArenaOK a)
    (hb : a.end_ + (size + 16 + a.align + a.info.commitSize) < 2 ^ 63)
    (hret : (arenaPushEx os w a size ext).2.2 ≠ 0) :
    StackArenaOK (arenaPushEx os w a size ext).2.1 ∧
    (arenaPushEx os w a size ext).2.1.flags = a.flags ∧
    (arenaPushEx os w a size ext).2.1.start = a.start ∧
    (arenaPushEx os w a size ext).2.1.align = a.align ∧
    (arenaPushEx os w a size ext).2.1.info = a.info ∧
    a.head + 8 ≤ (arenaPushEx os w a size ext).2.1.head ∧
    (arenaPushEx os w a size ext).2.1.end_ ≤
      a.end_ + (size + 16 + a.align + a.info.commitSize) ∧
    (∀ x, x < a.head → (arenaPushEx os w a size ext).1.mem x = w.mem x) ∧
    read64 (arenaPushEx os w a size ext).1.mem ((arenaPushEx os w a size ext).2.1.head - 8)
      = a.head := by
  obtain ⟨hstack, hsh, hhe, ⟨k, hk⟩, hgrow⟩ := hok
  have hk64 : k < 64 := by
    by_contra hcon
    have : 2 ^ 64 ≤ 2 ^ k := Nat.pow_le_pow_right (by decide) (by omega)
    omega
  have hsz := arenaPushEx.size_stack a size hstack (by omega)
  have hsz1 : size + 8 ≤ arenaPushEx.size a size ∧ arenaPushEx.size a size ≤ size + 16 := by
    split_ifs at hsz <;> omega
  have hszx : a.flags &&& FlagArenaExtended ≠ 0 → arenaPushEx.size a size = size + 16 := by
    intro h
    rw [if_pos h] at hsz
    omega
  have hx : wadd a.head (arenaPushEx.size a size) = a.head + arenaPushEx.size a size :=
    wadd_of_lt _ _ (by omega)
  have hN := alignTo_pow2_spec (a.head + arenaPushEx.size a size) k hk64 (by omega)
  have hNle : ∀ y, a.align ∣ y → a.head + arenaPushEx.size a size ≤ y →
      alignTo (wadd a.head (arenaPushEx.size a size)) a.align ≤ y := by
    intro y hy hle
    rw [hx, hk]
    exact alignTo_pow2_le_of_dvd _ _ k hk64 (by omega) (hk ▸ hy) hle
  rw [← hk, ← hx] at hN
  have hT : ¬ a.flags &&& FlagArenaFixedSize ≠ 0 →
      arenaPushEx.size a size ≤ alignTo (arenaPushEx.size a size) a.info.commitSize ∧
      alignTo (arenaPushEx.size a size) a.info.commitSize
        < arenaPushEx.size a size + a.info.commitSize ∧
      a.align ∣ a.end_ + alignTo (arenaPushEx.size a size) a.info.commitSize := by
    intro hnf
    obtain ⟨⟨c, hc⟩, hd1, hd2⟩ := hgrow.resolve_left hnf
    have hc64 : c < 64 := by
      by_contra hcon
      have : 2 ^ 64 ≤ 2 ^ c := Nat.pow_le_pow_right (by decide) (by omega)
      omega
    have hspec := alignTo_pow2_spec (arenaPushEx.size a size) c hc64 (by omega)
    rw [← hc] at hspec
    exact ⟨hspec.1, hspec.2.1, Nat.dvd_add hd2 (Nat.dvd_trans hd1 hspec.2.2)⟩
  unfold arenaPushEx at hret ⊢
  simp only at hret ⊢
  generalize alignTo (wadd a.head (arenaPushEx.size a size)) a.align = N at *
  generalize alignTo (arenaPushEx.size a size) a.info.commitSize = te at *
  split_ifs at hret ⊢ with hg hf hc
  · exact absurd rfl hret
  · exact absurd rfl hret
  · obtain ⟨ht1, ht2, ht3⟩ := hT hf
    have hwe : wadd a.end_ te = a.end_ + te := wadd_of_lt _ _ (by omega)
    have hNe : N ≤ a.end_ + te := hNle _ ht3 (by omega)
    obtain ⟨hf1, hf2, hf3⟩ := arenaPushEx.finish_stack
      (wbi__commitMemory os w a.end_ te a.info.commitFlags).1
      { a with end_ := wadd a.end_ te } a.head N ext hstack (by omega)
      (fun h => by have := hszx h; omega) (by omega)
    rw [hf1]
    refine ⟨⟨hstack, by simp only; omega, by simp only; omega, ⟨k, hk⟩, ?_⟩, rfl, rfl, rfl, rfl,
      by simp only; omega, by simp only; omega, ?_, hf3⟩
    · right
      obtain ⟨hcc, hd1, _⟩ := hgrow.resolve_left hf
      exact ⟨hcc, hd1, by simp only; rw [hwe]; exact ht3⟩
    · intro x hx2
      rw [hf2 x hx2]
      exact wbi__commitMemory_mem_below _ _ _ _ _ _ (by omega)
  · obtain ⟨hf1, hf2, hf3⟩ := arenaPushEx.finish_stack w a a.head N ext hstack (by omega)
      (fun h => by have := hszx h; omega) (by omega)
    rw [hf1]
    exact ⟨⟨hstack, by simp only; omega, by simp only; omega, ⟨k, hk⟩, hgrow⟩, rfl, rfl, rfl, rfl,
      by simp only; omega, by simp only; omega, hf2, hf3⟩

theorem toISize_of_lt (x : Nat) (h : x < 2 ^ 63) : toISize x = (x : Int) := by
  have hm : x % 2 ^ 64 = x := Nat.mod_eq_of_lt (by omega)
  unfold toISize
  rw [hm, if_pos h]

/-- One `arenaPop` on a Stack arena whose word below head holds `p`, with
`start <= p < head`: head becomes `p`, flags and start stay, and memory below
`p` is untouched. -/
theorem arenaPop_stack_step (w : World) (a : MemoryArena) (p : Nat)
    (hstack : a.flags &&& FlagArenaStack ≠ 0)
    (hread : read64 w.mem (a.head - 8) = p)
    (hsp : a.start ≤ p) (hph : p + 8 ≤ a.head) (hh : a.head < 2 ^ 63) :
    (arenaPop w a).2.head = p ∧ (arenaPop w a).2.flags = a.flags ∧
    (arenaPop w a).2.start = a.start ∧
    (∀ x, x < p → (arenaPop w a).1.mem x = w.mem x) := by
  have hsub : wsub a.head sizeofStackPtr = a.head - 8 := wsub_of_le a.head 8 (by omega) (by omega)
  have hcmp : toISize p ≤ toISize a.start ↔ p ≤ a.start := by
    rw [toISize_of_lt p (by omega), toISize_of_lt a.start (by omega)]
    exact Int.ofNat_le
  unfold arenaPop
  simp only [hstack, if_false, hsub, hread, hcmp]
  by_cases hle : p ≤ a.start
  · simp only [hle, if_true]
    exact ⟨by omega, trivial, trivial, fun _ _ => trivial⟩
  · simp only [hle, if_false]
    refine ⟨trivial, trivial, trivial, ?_⟩
    intro x hx
    split_ifs
    · exact memset_outside _ _ _ _ _ (Or.inl hx)
    · rfl
    · rfl

/-! ### Stack mode: pushes then as many pops -/

theorem pushBudget_cons (a : MemoryArena) (r : Nat × Nat) (rs : List (Nat × Nat)) :
    pushBudget a (r :: rs) = (r.1 + 16 + a.align + a.info.commitSize) + pushBudget a rs := by
  simp [pushBudget]

theorem pushBudget_congr (a b : MemoryArena) (rs : List (Nat × Nat))
    (h1 : b.align = a.align) (h2 : b.info = a.info) : pushBudget b rs = pushBudget a rs := by
  simp [pushBudget, h1, h2]

/-- After the listed pushes (none returning null) and as many pops, head, flags
and start are what they were before the pushes, and so is memory below that head. -/
theorem push_pop_restores (os : OS) (reqs : List (Nat × Nat)) :
    ∀ (s t : World × MemoryArena), StackArenaOK s.2 →
      s.2.end_ + pushBudget s.2 reqs < 2 ^ 63 → pushAll os reqs s = some t →
      (popN reqs.length t).2.head = s.2.head ∧ (popN reqs.length t).2.flags = s.2.flags ∧
      (popN reqs.length t).2.start = s.2.start ∧
      (∀ x, x < s.2.head → (popN reqs.length t).1.mem x = s.1.mem x) := by
  induction reqs with
  | nil =>
    intro s t _ _ hpush
    simp only [pushAll, Option.some.injEq] at hpush
    subst hpush
    exact ⟨rfl, rfl, rfl, fun _ _ => rfl⟩
  | cons r rs ih =>
    intro s t hok hb hpush
    rw [pushBudget_cons] at hb
    simp only [pushAll] at hpush
    split_ifs at hpush with hret
    obtain ⟨hok1, hflags, hstart, halign, hinfo, hhead, hend, hmem, hread⟩ :=
      arenaPushEx_stack_step os s.1 s.2 r.1 r.2 hok (by omega) hret
    have hb1 : (arenaPushEx os s.1 s.2 r.1 r.2).2.1.end_
        + pushBudget (arenaPushEx os s.1 s.2 r.1 r.2).2.1 rs < 2 ^ 63 := by
      rw [pushBudget_congr s.2 _ rs halign hinfo]
      omega
    obtain ⟨ih1, ih2, ih3, ih4⟩ := ih _ t hok1 hb1 hpush
    dsimp only at ih1 ih2 ih3 ih4
    have hle1 : (arenaPushEx os s.1 s.2 r.1 r.2).2.1.head ≤
        (arenaPushEx os s.1 s.2 r.1 r.2).2.1.end_ := hok1.2.2.1
    have hrd : read64 (popN rs.length t).1.mem ((popN rs.length t).2.head - 8) = s.2.head := by
      rw [ih1, ← hread]
      exact read64_congr _ _ _ (fun x h1 h2 => ih4 x (by omega))
    obtain ⟨p1, p2, p3, p4⟩ := arenaPop_stack_step (popN rs.length t).1 (popN rs.length t).2
      s.2.head (by rw [ih2, hflags]; exact hok.1) hrd (by rw [ih3, hstart]; exact hok.2.1)
      (by rw [ih1]; exact hhead) (by rw [ih1]; omega)
    simp only [List.length_cons, popN]
    refine ⟨p1, by rw [p2, ih2, hflags], by rw [p3, ih3, hstart], ?_⟩
    intro x hx
    rw [p4 x hx, ih4 x (by omega), hmem x hx]

/-- C5: on a consistent Stack-mode arena, with the addresses involved below
`2^63`, after `k` calls of `arenaPushEx` (any sizes, with or without growth, none
returning null) followed by `k` calls of `arenaPop`, head is what it was before
the first push. -/
theorem stack_push_pop_roundtrip (os : OS) (w : World) (arena : MemoryArena)
    (reqs : List (Nat × Nat)) (t : World × MemoryArena)
    (hok : StackArenaOK arena)
    (hbound : arena.end_ + pushBudget arena reqs < 2 ^ 63)
    (hpush : pushAll os reqs (w, arena) = some t) :
    (popN reqs.length t).2.head = arena.head :=
  (push_pop_restores os reqs (w, arena) t hok hbound hpush).1

theorem stack_push_pop_roundtrip_witness :
    StackArenaOK demoStackInit.2 ∧
    demoStackInit.2.end_ + pushBudget demoStackInit.2 demoStackReqs < 2 ^ 63 ∧
    pushAll demoOS demoStackReqs (demoStackInit.1, demoStackInit.2) = some demoStackPushed ∧
    demoStackPushed.2.end_ = 65536 + 3145728 ∧
    (popN demoStackReqs.length demoStackPushed).2.head = demoStackInit.2.head :=
  ⟨⟨by decide, by decide, by decide, ⟨3, by decide⟩,
      Or.inr ⟨⟨20, by decide⟩, by decide, by decide⟩⟩,
    by decide, rfl, by decide,
    stack_push_pop_roundtrip demoOS demoStackInit.1 demoStackInit.2 demoStackReqs demoStackPushed
      ⟨by decide, by decide, by decide, ⟨3, by decide⟩,
        Or.inr ⟨⟨20, by decide⟩, by decide, by decide⟩⟩
      (by decide) rfl⟩

/-! ### Temp regions where `arenaStartTemp` leaves `tempStart` non-null -/

theorem arenaEndTemp_without_temp (os : OS) (w : World) (a : MemoryArena)
    (h : a.tempStart = 0) : arenaEndTemp os w a = (w, a) := by
  simp [arenaEndTemp, h]

theorem arenaStartTemp_again (a : MemoryArena) (h : (arenaStartTemp a).tempStart ≠ 0) :
    arenaStartTemp (arenaStartTemp a) = arenaStartTemp a := by
  generalize arenaStartTemp a = b at h
  simp [arenaStartTemp, h]

theorem arenaPushEx.finish_temp_fields (w : World) (a : MemoryArena) (o n e : Nat) :
    (arenaPushEx.finish w a o n e).2.1.tempStart = a.tempStart ∧
    (arenaPushEx.finish w a o n e).2.1.tempHead = a.tempHead := by
  simp [arenaPushEx.finish]

theorem arenaPushEx_temp_fields (os : OS) (w : World) (a : MemoryArena) (size ext : Nat) :
    (arenaPushEx os w a size ext).2.1.tempStart = a.tempStart ∧
    (arenaPushEx os w a size ext).2.1.tempHead = a.tempHead := by
  unfold arenaPushEx
  simp only
  split_ifs
  · exact ⟨rfl, rfl⟩
  · exact ⟨rfl, rfl⟩
  · exact arenaPushEx.finish_temp_fields _ _ _ _ _
  · exact arenaPushEx.finish_temp_fields _ _ _ _ _

theorem pushAll_temp_fields (os : OS) (reqs : List (Nat × Nat)) :
    ∀ (s t : World × MemoryArena), pushAll os reqs s = some t →
      t.2.tempStart = s.2.tempStart ∧ t.2.tempHead = s.2.tempHead := by
  induction reqs with
  | nil =>
    intro s t h
    simp only [pushAll, Option.some.injEq] at h
    subst h
    exact ⟨rfl, rfl⟩
  | cons r rs ih =>
    intro s t h
    simp only [pushAll] at h
    split_ifs at h
    obtain ⟨h1, h2⟩ := ih _ t h
    obtain ⟨h3, h4⟩ := arenaPushEx_temp_fields os s.1 s.2 r.1 r.2
    dsimp only at h1 h2
    exact ⟨by rw [h1, h3], by rw [h2, h4]⟩

/-- Where the first `arenaStartTemp` leaves `tempStart` non-null (a page size
that is set), `arenaStartTemp`, pushes that do not return null, then
`arenaEndTemp` restore head and null both temp fields. -/
theorem temp_region_restores_head (os : OS) (w : World) (a : MemoryArena)
    (reqs : List (Nat × Nat)) (t : World × MemoryArena) (h0 : a.tempStart = 0)
    (h1 : (arenaStartTemp a).tempStart ≠ 0)
    (hp : pushAll os reqs (w, arenaStartTemp a) = some t) :
    (arenaEndTemp os t.1 t.2).2.head = a.head ∧ (arenaEndTemp os t.1 t.2).2.tempStart = 0 ∧
    (arenaEndTemp os t.1 t.2).2.tempHead = 0 := by
  obtain ⟨h2, h3⟩ := pushAll_temp_fields os reqs _ t hp
  dsimp only at h2 h3
  have h4 : (arenaStartTemp a).tempHead = a.head := by
    simp [arenaStartTemp, h0]
  have h5 : t.2.tempStart ≠ 0 := by rw [h2]; exact h1
  simp [arenaEndTemp, h5, h3, h4]

/-! ### Scenario S2 away from the start of the arena -/

/-- What `arenaPushEx` returns and where it puts head when it does not take one
of its two `return NULL` statements. -/
theorem arenaPushEx_ret (os : OS) (w : World) (a : MemoryArena) (size ext : Nat) :
    ((arenaPushEx os w a size ext).2.2 = 0 ∧ (arenaPushEx os w a size ext).2.1 = a) ∨
    ((arenaPushEx os w a size ext).2.2 =
        (if a.flags &&& FlagArenaExtended ≠ 0 then wadd a.head sizeofExtendedInfo else a.head) ∧
      (arenaPushEx os w a size ext).2.1.head =
        alignTo (wadd a.head (arenaPushEx.size a size)) a.align) := by
  unfold arenaPushEx
  simp only
  split_ifs
  all_goals first
    | exact Or.inl ⟨rfl, rfl⟩
    | (right; simp_all [arenaPushEx.finish])

/-- The pointer `arenaPushEx` returns when no growth is needed. -/
theorem arenaPushEx_ret_of_fit (os : OS) (w : World) (b : MemoryArena) (size ext : Nat)
    (hfit : alignTo (wadd b.head (arenaPushEx.size b size)) b.align ≤ b.end_) :
    (arenaPushEx os w b size ext).2.2 =
      (if b.flags &&& FlagArenaExtended ≠ 0 then wadd b.head sizeofExtendedInfo else b.head) := by
  have hng : ¬ alignTo (wadd b.head (arenaPushEx.size b size)) b.align > b.end_ :=
    Nat.not_lt.mpr hfit
  unfold arenaPushEx
  simp only [hng, if_false]
  simp [arenaPushEx.finish]

/-- One `arenaPop` that takes neither early return, NoZeroMemory unset: head
goes back to `p` and the bytes from `p` up to the old head are zeroed. -/
theorem arenaPop_zeroes (w : World) (a : MemoryArena) (p : Nat)
    (hstack : a.flags &&& FlagArenaStack ≠ 0) (hnz : a.flags &&& FlagArenaNoZeroMemory = 0)
    (hread : read64 w.mem (a.head - 8) = p)
    (hsp : a.start < p) (hph : p + 8 ≤ a.head) (hh : a.head < 2 ^ 63) :
    (arenaPop w a).2 = { a with head := p } ∧
    (arenaPop w a).1.mem = memset w.mem p 0 (a.head - p) := by
  have hsub : wsub a.head sizeofStackPtr = a.head - 8 := wsub_of_le a.head 8 (by omega) (by omega)
  have hsz : wsub a.head p = a.head - p := wsub_of_le a.head p (by omega) (by omega)
  have hcmp : ¬ toISize p ≤ toISize a.start := by
    rw [toISize_of_lt p (by omega), toISize_of_lt a.start (by omega)]
    exact fun h => absurd (Int.ofNat_le.mp h) (by omega)
  have hpos : a.head - p > 0 := by omega
  unfold arenaPop
  simp only [hstack, if_false, hsub, hread, hcmp, hnz, if_true, hsz, hpos]
  exact ⟨trivial, trivial⟩

/-- Scenario S2 on a consistent Stack arena whose head is above start,
NoZeroMemory unset: after `p = arenaPush(arena, n)`, a write over `[p, p+n)`
and one `arenaPop`, every byte of `[p, p+n)` is zero, head is back where it
was, and the next `arenaPush(arena, n)` returns `p`. -/
theorem pushWritePop_above_start (os : OS) (w : World) (a : MemoryArena) (n byte : Nat)
    (hok : StackArenaOK a) (hnz : a.flags &&& FlagArenaNoZeroMemory = 0)
    (hgt : a.start < a.head)
    (hb : a.end_ + (n + 16 + a.align + a.info.commitSize) < 2 ^ 63)
    (hret : (arenaPush os w a n).2.2 ≠ 0) :
    (∀ x, (pushWritePop os w a n byte).1 ≤ x → x < (pushWritePop os w a n byte).1 + n →
      (pushWritePop os w a n byte).2.1.mem x = 0) ∧
    (pushWritePop os w a n byte).2.2.head = a.head ∧
    (arenaPush os (pushWritePop os w a n byte).2.1 (pushWritePop os w a n byte).2.2 n).2.2 =
      (pushWritePop os w a n byte).1 := by
  unfold arenaPush at hret
  obtain ⟨hok1, hflags, hstart, halign, hinfo, hhead, hend, hmem, hread⟩ :=
    arenaPushEx_stack_step os w a n 0 hok hb hret
  have hsz := arenaPushEx.size_stack a n hok.1 (by omega)
  obtain ⟨hrv, hrh⟩ := (arenaPushEx_ret os w a n 0).resolve_left (fun h => hret h.1)
  obtain ⟨k, hk⟩ := hok.2.2.2.1
  have hhe : a.head ≤ a.end_ := hok.2.2.1
  have hk64 : k < 64 := by
    by_contra hcon
    have : 2 ^ 64 ≤ 2 ^ k := Nat.pow_le_pow_right (by decide) (by omega)
    omega
  have hwadd : wadd a.head (arenaPushEx.size a n) = a.head + arenaPushEx.size a n :=
    wadd_of_lt _ _ (by split_ifs at hsz <;> omega)
  have hN := alignTo_pow2_spec (a.head + arenaPushEx.size a n) k hk64
    (by split_ifs at hsz <;> omega)
  rw [← hk, ← hwadd, ← hrh] at hN
  have hp : a.head ≤ (arenaPushEx os w a n 0).2.2 ∧
      (arenaPushEx os w a n 0).2.2 + n + 8 ≤ (arenaPushEx os w a n 0).2.1.head := by
    rw [hrv]
    unfold wadd sizeofExtendedInfo
    split_ifs at hsz ⊢ <;> omega
  have hle1 : (arenaPushEx os w a n 0).2.1.head ≤ (arenaPushEx os w a n 0).2.1.end_ := hok1.2.2.1
  have hsz2 : arenaPushEx.size { (arenaPushEx os w a n 0).2.1 with head := a.head } n
      = arenaPushEx.size a n := by
    simp [arenaPushEx.size, hflags]
  rw [hrh] at hle1
  generalize hr : arenaPushEx os w a n 0 = r at *
  obtain ⟨hpa, hpm⟩ := arenaPop_zeroes { r.1 with mem := memset r.1.mem r.2.2 byte n } r.2.1 a.head
    (by rw [hflags]; exact hok.1) (by rw [hflags]; exact hnz)
    (by
      rw [← hread]
      exact read64_congr _ _ _ (fun x h1 h2 => memset_outside _ _ _ _ _ (by omega)))
    (by rw [hstart]; exact hgt) hhead (by omega)
  have hpw : pushWritePop os w a n byte = (r.2.2,
      (arenaPop { r.1 with mem := memset r.1.mem r.2.2 byte n } r.2.1).1,
      (arenaPop { r.1 with mem := memset r.1.mem r.2.2 byte n } r.2.1).2) := by
    unfold pushWritePop arenaPush
    simp only
    rw [hr]
  have hfit : alignTo (wadd ({ r.2.1 with head := a.head } : MemoryArena).head
      (arenaPushEx.size { r.2.1 with head := a.head } n))
      ({ r.2.1 with head := a.head } : MemoryArena).align
      ≤ ({ r.2.1 with head := a.head } : MemoryArena).end_ := by
    rw [hsz2]
    simp only [halign]
    exact hle1
  rw [hpw]
  simp only
  rw [hpa, hpm]
  refine ⟨?_, rfl, ?_⟩
  · intro x hx1 hx2
    have hin : a.head ≤ x ∧ x < a.head + (r.2.1.head - a.head) := by omega
    unfold memset
    simp only [hin, and_self, if_true]
  · unfold arenaPush
    rw [arenaPushEx_ret_of_fit _ _ _ n 0 hfit, hrv]
    simp only [hflags]

/-! ### Two pushes in a row -/

/-- For an alignment of at least 1 and with no wrap-around, `alignTo` does not
go below its argument and stays within one alignment of it. -/
theorem alignTo_ge (x align : Nat) (h1 : 1 ≤ align) (ha : align < 2 ^ 64)
    (hx : x + align ≤ 2 ^ 64) :
    x ≤ alignTo x align ∧ alignTo x align < x + align := by
  have hs : wsub align 1 = align - 1 := wsub_of_le align 1 h1 (by omega)
  have hle : x &&& (align - 1) ≤ align - 1 := Nat.and_le_right
  unfold alignTo
  simp only [hs]
  by_cases hm : x &&& (align - 1) = 0
  · simp only [hm, ne_eq, not_true_eq_false, if_false]
    omega
  · simp only [hm, ne_eq, not_false_eq_true, if_true]
    rw [wsub_of_le align _ (by omega) (by omega), wadd_of_lt _ _ (by omega)]
    omega

theorem arenaPushEx.finish_flags (w : World) (a : MemoryArena) (o n e : Nat) :
    (arenaPushEx.finish w a o n e).2.1.flags = a.flags ∧
    (arenaPushEx.finish w a o n e).2.1.align = a.align := by
  simp [arenaPushEx.finish]

theorem arenaPushEx_flags (os : OS) (w : World) (a : MemoryArena) (size ext : Nat) :
    (arenaPushEx os w a size ext).2.1.flags = a.flags ∧
    (arenaPushEx os w a size ext).2.1.align = a.align := by
  unfold arenaPushEx
  simp only
  split_ifs
  · exact ⟨rfl, rfl⟩
  · exact ⟨rfl, rfl⟩
  · exact arenaPushEx.finish_flags _ _ _ _ _
  · exact arenaPushEx.finish_flags _ _ _ _ _

/-- C11 as stated fails: on the fixed-size arena over `[4096, 8192)` (no Stack,
no Extended flag, head aligned) two calls `arenaPush(arena, 0)` in a row both
return 4096. -/
theorem arenaPush_zero_twice_same_address :
    (arenaPush demoOS demoWorld demoFixedArena 0).2.2 = 4096 ∧
    (arenaPush demoOS (arenaPush demoOS demoWorld demoFixedArena 0).1
      (arenaPush demoOS demoWorld demoFixedArena 0).2.1 0).2.2 = 4096 ∧
    ¬ ((arenaPush demoOS demoWorld demoFixedArena 0).2.2 <
      (arenaPush demoOS (arenaPush demoOS demoWorld demoFixedArena 0).1
        (arenaPush demoOS demoWorld demoFixedArena 0).2.1 0).2.2) := by
  decide

/-- C11 amended: for two `arenaPush` calls in a row that both return non-null,
on an arena with an alignment of at least 1 and no address near `2^64`, the
second address is not below the first, and it is strictly greater when the
size of the first call is at least 1 or the arena has the Stack or the
Extended flag. -/
theorem arenaPush_twice_monotone (os : OS) (w : World) (a : MemoryArena) (s1 s2 : Nat)
    (halign : 1 ≤ a.align)
    (hb : a.head + s1 + 16 + a.align + 8 < 2 ^ 64)
    (h1 : (arenaPush os w a s1).2.2 ≠ 0)
    (h2 : (arenaPush os (arenaPush os w a s1).1 (arenaPush os w a s1).2.1 s2).2.2 ≠ 0) :
    (arenaPush os w a s1).2.2 ≤
      (arenaPush os (arenaPush os w a s1).1 (arenaPush os w a s1).2.1 s2).2.2 ∧
    ((1 ≤ s1 ∨ a.flags &&& FlagArenaStack ≠ 0 ∨ a.flags &&& FlagArenaExtended ≠ 0) →
      (arenaPush os w a s1).2.2 <
        (arenaPush os (arenaPush os w a s1).1 (arenaPush os w a s1).2.1 s2).2.2) := by
  unfold arenaPush at h1 h2 ⊢
  obtain ⟨hr1, hh1⟩ := (arenaPushEx_ret os w a s1 0).resolve_left (fun h => h1 h.1)
  obtain ⟨hf1, _⟩ := arenaPushEx_flags os w a s1 0
  obtain ⟨hr2, _⟩ := (arenaPushEx_ret os (arenaPushEx os w a s1 0).1
    (arenaPushEx os w a s1 0).2.1 s2 0).resolve_left (fun h => h2 h.1)
  have hsz : s1 ≤ arenaPushEx.size a s1 ∧ arenaPushEx.size a s1 ≤ s1 + 16 ∧
      (a.flags &&& FlagArenaStack ≠ 0 → 8 ≤ arenaPushEx.size a s1) ∧
      (a.flags &&& FlagArenaExtended ≠ 0 → 8 ≤ arenaPushEx.size a s1) := by
    unfold arenaPushEx.size wadd sizeofStackPtr sizeofExtendedInfo
    simp only
    split_ifs <;> omega
  have hw : wadd a.head (arenaPushEx.size a s1) = a.head + arenaPushEx.size a s1 :=
    wadd_of_lt _ _ (by omega)
  have hal := alignTo_ge (a.head + arenaPushEx.size a s1) a.align halign (by omega) (by omega)
  rw [← hw, ← hh1] at hal
  rw [hr2, hr1, hf1]
  unfold wadd sizeofExtendedInfo
  constructor
  · split_ifs <;> omega
  · intro hpos
    have : 1 ≤ arenaPushEx.size a s1 := by
      rcases hpos with h | h | h
      · omega
      · have := hsz.2.2.1 h
        omega
      · have := hsz.2.2.2 h
        omega
    split_ifs <;> omega

theorem arenaPush_twice_monotone_witness :
    1 ≤ demoFixedArena.align ∧
    demoFixedArena.head + 100 + 16 + demoFixedArena.align + 8 < 2 ^ 64 ∧
    (arenaPush demoOS demoWorld demoFixedArena 100).2.2 ≠ 0 ∧
    (arenaPush demoOS (arenaPush demoOS demoWorld demoFixedArena 100).1
      (arenaPush demoOS demoWorld demoFixedArena 100).2.1 0).2.2 ≠ 0 ∧
    ((arenaPush demoOS demoWorld demoFixedArena 100).2.2 ≤
      (arenaPush demoOS (arenaPush demoOS demoWorld demoFixedArena 100).1
        (arenaPush demoOS demoWorld demoFixedArena 100).2.1 0).2.2 ∧
    ((1 ≤ 100 ∨ demoFixedArena.flags &&& FlagArenaStack ≠ 0 ∨
        demoFixedArena.flags &&& FlagArenaExtended ≠ 0) →
      (arenaPush demoOS demoWorld demoFixedArena 100).2.2 <
        (arenaPush demoOS (arenaPush demoOS demoWorld demoFixedArena 100).1
          (arenaPush demoOS demoWorld demoFixedArena 100).2.1 0).2.2)) :=
  ⟨by decide, by decide, by decide, by decide,
    arenaPush_twice_monotone demoOS demoWorld demoFixedArena 100 0
      (by decide) (by decide) (by decide) (by decide)⟩

/-! ### OS calls on a fixed-size arena -/

theorem alignTo_zero (x : Nat) (hx : x < 2 ^ 64) : alignTo x 0 = 0 := by
  have hs : wsub 0 1 = 2 ^ 64 - 1 := by decide
  have hand : x &&& (2 ^ 64 - 1) = x := by
    rw [Nat.and_pow_two_sub_one_eq_mod]
    exact Nat.mod_eq_of_lt hx
  unfold alignTo
  simp only [hs, hand]
  by_cases h : x = 0
  · simp [h]
  · simp only [ne_eq, h, not_false_eq_true, if_true]
    unfold wadd wsub
    omega

theorem arenaPushEx.finish_log (w : World) (a : MemoryArena) (o n e : Nat) :
    (arenaPushEx.finish w a o n e).1.log = w.log := by
  unfold arenaPushEx.finish
  simp only
  split_ifs <;> rfl

/-- On an arena with the FixedSize flag `arenaPushEx` makes no OS call. -/
theorem arenaPushEx_fixed_log (os : OS) (w : World) (a : MemoryArena) (size ext : Nat)
    (hfixed : a.flags &&& FlagArenaFixedSize ≠ 0) :
    (arenaPushEx os w a size ext).1.log = w.log := by
  unfold arenaPushEx
  simp only [hfixed, if_true]
  split_ifs
  · rfl
  · exact arenaPushEx.finish_log _ _ _ _ _

/-- No OS call in `arenaPop`. -/
theorem arenaPop_log (w : World) (a : MemoryArena) : (arenaPop w a).1.log = w.log := by
  unfold arenaPop
  simp only
  split_ifs <;> rfl

/-- On an arena whose page size is 0, as `arenaFixedSizeInit` leaves it,
`arenaStartTemp` leaves `tempStart` null, so that `arenaEndTemp` returns at once. -/
theorem arenaStartTemp_pageSize_zero (a : MemoryArena) (hp : a.info.pageSize = 0)
    (ht : a.tempStart = 0) (hh : a.head < 2 ^ 64) : (arenaStartTemp a).tempStart = 0 := by
  simp [arenaStartTemp, ht, hp, alignTo_zero a.head hh]

/-- C12: on the fixed-size arena over `[4096, 8192)`, with no OS call made
before, `arenaClear` calls `wbi__decommitMemory` and `wbi__commitMemory` on the
buffer: unlike `arenaPushEx` it does not test `FlagArenaFixedSize`. -/
theorem arenaClear_fixed_calls_os :
    demoFixedArena.flags &&& FlagArenaFixedSize ≠ 0 ∧ demoWorld.log = [] ∧
    (arenaClear demoOS demoWorld demoFixedArena).1.log =
      [OSCall.decommitMemory 4096 4096, OSCall.commitMemory 4096 4096 0] := by
  decide

/-! ### Pool: evaluations -/

/-- C13: `poolInit` with element size 4 over the arena `[4096, 8192)` stores
`elementSize = 8` and the other fields as claimed, but `capacity = 4096 / 4 =
1024`, not `4096 / 8 = 512`: 1024 slots of 8 bytes do not fit in the 4096
bytes before the end of the arena. -/
theorem poolInit_small_element_capacity :
    (poolInit MemoryPool.zeroed demoFixedArena 4 FlagPoolNormal).elementSize = 8 ∧
    (poolInit MemoryPool.zeroed demoFixedArena 4 FlagPoolNormal).slots = demoFixedArena.head ∧
    (poolInit MemoryPool.zeroed demoFixedArena 4 FlagPoolNormal).count = 0 ∧
    (poolInit MemoryPool.zeroed demoFixedArena 4 FlagPoolNormal).lastFilled = -1 ∧
    (poolInit MemoryPool.zeroed demoFixedArena 4 FlagPoolNormal).freeList = 0 ∧
    (poolInit MemoryPool.zeroed demoFixedArena 4 FlagPoolNormal).capacity = 1024 ∧
    demoFixedArena.end_ - demoFixedArena.head = 4096 ∧
    ¬ ((poolInit MemoryPool.zeroed demoFixedArena 4 FlagPoolNormal).capacity *
        ((poolInit MemoryPool.zeroed demoFixedArena 4 FlagPoolNormal).elementSize : Int)
      ≤ ((demoFixedArena.end_ - demoFixedArena.head : Nat) : Int)) := by
  decide

/-- C14: the growing pool of 1 MiB elements over the arena fresh from
`arenaInit` (head = start = 65536, end = 1114112) has capacity 1.  The second
`poolRetrieve` calls `arenaPush(arena, 1 MiB)`, which fits below end and commits
nothing; capacity stays 1, `lastFilled` becomes 1 and the slot returned starts
at 1114112, the end of the arena. -/
theorem poolRetrieve_growth_past_end :
    demoGrowingPool.capacity = 1 ∧ demoGrowingPool.elementSize = 1048576 ∧
    (runPool demoOS 0 [PoolOp.retrieve, PoolOp.retrieve]
      ((demoNormalInit.1, demoNormalInit.2, demoGrowingPool), [])).map
        (fun r => (r.2, r.1.2.2.lastFilled, r.1.2.2.capacity, r.1.2.1.end_, r.1.1.log.length))
      = some ([65536, 1114112], 1, 1, 1114112, 2) ∧
    ¬ ((1 : Int) + 1 ≤ 1) := by
  decide

/-- C16: on `demoPool`, retrieve a slot (4096) and release it: `count = 0`,
free list 4096.  The second `poolRelease` of it is reported and leaves the free
list alone, but `count` is -1: `pool->count--` comes before the check. -/
theorem poolRelease_twice_count :
    (runPool demoOS 4 [PoolOp.retrieve, PoolOp.releaseNth 0]
      ((demoWorld, demoFixedArena, demoPool), [])).map
        (fun r => (r.2, r.1.2.2.count, r.1.2.2.freeList, r.1.1.reports))
      = some ([4096], 0, 4096, []) ∧
    (runPool demoOS 4 [PoolOp.retrieve, PoolOp.releaseNth 0, PoolOp.releaseNth 0]
      ((demoWorld, demoFixedArena, demoPool), [])).map
        (fun r => (r.2, r.1.2.2.count, r.1.2.2.freeList, r.1.1.reports))
      = some ([4096], -1, 4096, [Report.poolReleaseDoubleFree]) := by
  decide

/-- C17: on `demoCompactingPool` (32-byte slots from 4096), retrieve,
retrieve, retrieve, release of the second slot, retrieve: the last retrieve
returns the slot at index 3 (4192 = 4096 + 3 * 32) while `count = 3`, so a live
slot lies outside the indices `[0, 3)`; `lastFilled` was not lowered by the
release.  The free list is empty. -/
theorem poolRetrieve_compacting_after_release :
    demoCompactingPool.flags &&& FlagPoolCompacting ≠ 0 ∧
    (runPool demoOS 4
      [PoolOp.retrieve, PoolOp.retrieve, PoolOp.retrieve, PoolOp.releaseNth 1, PoolOp.retrieve]
      ((demoWorld, demoFixedArena, demoCompactingPool), [])).map
        (fun r => (r.2, r.1.2.2.count, r.1.2.2.lastFilled, r.1.2.2.freeList,
          r.1.2.2.slots, r.1.2.2.elementSize))
      = some ([4096, 4128, 4160, 4192], 3, 3, 0, 4096, 32) ∧
    ¬ (4192 < 4096 + 3 * 32) := by
  decide

/-! ### Pool: compacting release, zeroed slots -/

theorem ofISize_of_nonneg (c : Int) (h0 : 0 ≤ c) (h1 : c < 2 ^ 64) : ofISize c = c.toNat := by
  unfold ofISize
  omega

/-- C18: on a Compacting-mode pool (free list null, as it always is in this
mode) with `count >= 1`, element size at least 1 and the slots below `2^64`,
`poolRelease(pool, ptr)` for the slot `ptr` at an index below `count` returns,
lowers `count` by one and changes nothing else in the descriptor; the
`elementSize` bytes at `ptr` become the bytes that the slot at index
`old count - 1` held before the call, and every byte outside
`[ptr, ptr + elementSize)` is unchanged. -/
theorem poolRelease_compacting (fuel : Nat) (w : World) (pool : MemoryPool) (ptr i : Nat)
    (hcomp : pool.flags &&& FlagPoolCompacting ≠ 0) (hfl : pool.freeList = 0)
    (hcount : 1 ≤ pool.count) (hes : 1 ≤ pool.elementSize)
    (hi : (i : Int) < pool.count) (hptr : ptr = pool.slots + i * pool.elementSize)
    (hb : pool.slots + pool.count.toNat * pool.elementSize < 2 ^ 64) :
    ∃ w1, poolRelease fuel w pool ptr = some (w1, { pool with count := pool.count - 1 }) ∧
      (∀ k, k < pool.elementSize →
        w1.mem (ptr + k) = w.mem (pool.slots + (pool.count - 1).toNat * pool.elementSize + k)) ∧
      (∀ x, x < ptr ∨ ptr + pool.elementSize ≤ x → w1.mem x = w.mem x) ∧
      ptr + pool.elementSize ≤ pool.slots + pool.count.toNat * pool.elementSize ∧
      w1.log = w.log ∧ w1.reports = w.reports := by
  have hc : pool.count.toNat = (pool.count - 1).toNat + 1 := by omega
  have hin : ptr + pool.elementSize ≤ pool.slots + pool.count.toNat * pool.elementSize := by
    have h1 : (i + 1) * pool.elementSize ≤ pool.count.toNat * pool.elementSize :=
      Nat.mul_le_mul_right _ (by omega)
    rw [Nat.add_mul, Nat.one_mul] at h1
    omega
  have hmul : (pool.count - 1).toNat * pool.elementSize + pool.elementSize
      = pool.count.toNat * pool.elementSize := by
    rw [hc, Nat.add_mul, Nat.one_mul]
  have hlt : (pool.count - 1).toNat < 2 ^ 64 := by
    have : (pool.count - 1).toNat * 1 ≤ (pool.count - 1).toNat * pool.elementSize :=
      Nat.mul_le_mul_left _ hes
    omega
  have hsrc : wadd pool.slots (wmul (ofISize (pool.count - 1)) pool.elementSize)
      = pool.slots + (pool.count - 1).toNat * pool.elementSize := by
    rw [ofISize_of_nonneg _ (by omega) (by omega)]
    unfold wadd wmul
    omega
  refine ⟨World.mk (memcpy w.mem ptr
      (pool.slots + (pool.count - 1).toNat * pool.elementSize) pool.elementSize) w.log w.reports,
      ?_, ?_, ?_, hin, rfl, rfl⟩
  · unfold poolRelease
    simp only [hfl, ne_eq, not_true_eq_false, false_and, if_false, hcomp, not_false_eq_true,
      if_true, hsrc]
  · intro k hk
    simp only [memcpy]
    have : ptr ≤ ptr + k ∧ ptr + k < ptr + pool.elementSize := by omega
    simp only [this, and_self, if_true, Nat.add_sub_cancel_left]
  · intro x hx
    simp only [memcpy]
    have : ¬ (ptr ≤ x ∧ x < ptr + pool.elementSize) := by omega
    simp only [this, if_false]

theorem poolRelease_compacting_witness :
    demoCompactingFilled.2.2.flags &&& FlagPoolCompacting ≠ 0 ∧
    demoCompactingFilled.2.2.freeList = 0 ∧ 1 ≤ demoCompactingFilled.2.2.count ∧
    1 ≤ demoCompactingFilled.2.2.elementSize ∧ ((1 : Nat) : Int) < demoCompactingFilled.2.2.count ∧
    4128 = demoCompactingFilled.2.2.slots + 1 * demoCompactingFilled.2.2.elementSize ∧
    demoCompactingFilled.2.2.slots +
      demoCompactingFilled.2.2.count.toNat * demoCompactingFilled.2.2.elementSize < 2 ^ 64 ∧
    demoCompactingFilled.1.mem 4128 = 2 ∧ demoCompactingFilled.1.mem 4160 = 3 ∧
    ∃ w1, poolRelease 0 demoCompactingFilled.1 demoCompactingFilled.2.2 4128 =
        some (w1, { demoCompactingFilled.2.2 with count := demoCompactingFilled.2.2.count - 1 }) ∧
      (∀ k, k < demoCompactingFilled.2.2.elementSize →
        w1.mem (4128 + k) = demoCompactingFilled.1.mem (demoCompactingFilled.2.2.slots +
          (demoCompactingFilled.2.2.count - 1).toNat * demoCompactingFilled.2.2.elementSize + k)) ∧
      (∀ x, x < 4128 ∨ 4128 + demoCompactingFilled.2.2.elementSize ≤ x →
        w1.mem x = demoCompactingFilled.1.mem x) ∧
      4128 + demoCompactingFilled.2.2.elementSize ≤ demoCompactingFilled.2.2.slots +
        demoCompactingFilled.2.2.count.toNat * demoCompactingFilled.2.2.elementSize ∧
      w1.log = demoCompactingFilled.1.log ∧ w1.reports = demoCompactingFilled.1.reports :=
  ⟨by decide, by decide, by decide, by decide, by decide, by decide, by decide, by decide,
    by decide,
    poolRelease_compacting 0 demoCompactingFilled.1 demoCompactingFilled.2.2 4128 1
      (by decide) (by decide) (by decide) (by decide) (by decide) (by decide) (by decide)⟩

theorem poolRetrieve.advance_zeroed (w : World) (arena : MemoryArena) (pool : MemoryPool)
    (hnz : pool.flags &&& FlagPoolNoZeroMemory = 0) :
    (∀ x, (poolRetrieve.advance w arena pool).2.2.2 ≤ x →
        x < (poolRetrieve.advance w arena pool).2.2.2 + pool.elementSize →
        (poolRetrieve.advance w arena pool).1.mem x = 0) ∧
    (poolRetrieve.advance w arena pool).2.2.1.count = pool.count + 1 ∧
    (poolRetrieve.advance w arena pool).2.2.1.elementSize = pool.elementSize := by
  unfold poolRetrieve.advance
  simp only [hnz, if_true]
  refine ⟨?_, trivial, trivial⟩
  intro x h1 h2
  simp only [memset, h1, h2, and_self, if_true]

/-- C19: on a pool without NoZeroMemory, a `poolRetrieve` that does not return
null, from the free list or from the linear region (with or without growth),
leaves every byte of the `elementSize` bytes at the returned pointer zero and
raises `count` by exactly one. -/
theorem poolRetrieve_zeroed (os : OS) (w : World) (arena : MemoryArena) (pool : MemoryPool)
    (hnz : pool.flags &&& FlagPoolNoZeroMemory = 0)
    (hret : (poolRetrieve os w arena pool).2.2.2 ≠ 0) :
    (∀ x, (poolRetrieve os w arena pool).2.2.2 ≤ x →
        x < (poolRetrieve os w arena pool).2.2.2 + pool.elementSize →
        (poolRetrieve os w arena pool).1.mem x = 0) ∧
    (poolRetrieve os w arena pool).2.2.1.count = pool.count + 1 ∧
    (poolRetrieve os w arena pool).2.2.1.elementSize = pool.elementSize := by
  unfold poolRetrieve at hret ⊢
  simp only at hret ⊢
  split_ifs at hret ⊢ with hfree hfull hfixed hpush
  · simp only [hnz, if_true]
    refine ⟨?_, trivial, trivial⟩
    intro x h1 h2
    simp only [memset, h1, h2, and_self, if_true]
  · exact absurd rfl hret
  · exact absurd rfl hret
  · exact poolRetrieve.advance_zeroed _ _ _ hnz
  · exact poolRetrieve.advance_zeroed _ _ _ hnz

theorem poolRetrieve_zeroed_witness :
    demoPool.flags &&& FlagPoolNoZeroMemory = 0 ∧
    (poolRetrieve demoOS demoWorld demoFixedArena demoPool).2.2.2 ≠ 0 ∧
    (∀ x, (poolRetrieve demoOS demoWorld demoFixedArena demoPool).2.2.2 ≤ x →
        x < (poolRetrieve demoOS demoWorld demoFixedArena demoPool).2.2.2 + demoPool.elementSize →
        (poolRetrieve demoOS demoWorld demoFixedArena demoPool).1.mem x = 0) ∧
    (poolRetrieve demoOS demoWorld demoFixedArena demoPool).2.2.1.count = demoPool.count + 1 ∧
    (poolRetrieve demoOS demoWorld demoFixedArena demoPool).2.2.1.elementSize
      = demoPool.elementSize :=
  ⟨by decide, by decide,
    poolRetrieve_zeroed demoOS demoWorld demoFixedArena demoPool (by decide) (by decide)⟩

/-! ### Tagged heap: a request larger than a sub-arena -/

/-- C20: for every tagged heap, every tag and every `size > heap.arenaSize`,
`taggedAlloc` reports, returns null and leaves everything as it was: the heap
descriptor (tag table, backing pool with its `count`, `lastFilled` and free
list), the arena of the pool, and the memory, where the sub-arenas are. -/
theorem taggedAlloc_too_large (os : OS) (fuel : Nat) (w : World) (alloc : MemoryArena)
    (heap : TaggedHeap) (tag size : Nat) (hsize : size > heap.arenaSize) :
    taggedAlloc os fuel w alloc heap tag size =
      some (w.report Report.taggedAllocTooLarge, alloc, heap, 0) ∧
    (w.report Report.taggedAllocTooLarge).mem = w.mem ∧
    (w.report Report.taggedAllocTooLarge).log = w.log := by
  unfold taggedAlloc
  simp only [hsize, if_true]
  exact ⟨trivial, rfl, rfl⟩

theorem taggedAlloc_too_large_witness :
    5000 > demoHeap.arenaSize ∧
    taggedAlloc demoOS 0 demoNormalInit.1 demoNormalInit.2 demoHeap 1 5000 =
      some (demoNormalInit.1.report Report.taggedAllocTooLarge, demoNormalInit.2, demoHeap, 0) ∧
    (demoNormalInit.1.report Report.taggedAllocTooLarge).mem = demoNormalInit.1.mem ∧
    (demoNormalInit.1.report Report.taggedAllocTooLarge).log = demoNormalInit.1.log :=
  ⟨by decide, taggedAlloc_too_large demoOS 0 demoNormalInit.1 demoNormalInit.2 demoHeap 1 5000
    (by decide)⟩

/-! ### Pool: the free list -/

theorem FreeListIs_congr (m m2 : Mem) (l : List Nat) :
    ∀ h, (∀ p ∈ l, ∀ x, p ≤ x → x < p + 8 → m2 x = m x) →
      FreeListIs m h l → FreeListIs m2 h l := by
  induction l with
  | nil => intro h _ hl; exact hl
  | cons p ps ih =>
    intro h hagree hl
    obtain ⟨h1, h2, h3⟩ := hl
    refine ⟨h1, h2, ?_⟩
    rw [read64_congr m m2 p (fun x hx1 hx2 => hagree p (List.mem_cons_self _ _) x hx1 hx2)]
    exact ih _ (fun q hq => hagree q (List.mem_cons_of_mem _ hq)) h3

theorem FreeListIs_head_lt (m : Mem) (h : Nat) (l : List Nat) (hl : FreeListIs m h l)
    (hlt : ∀ p ∈ l, p < 2 ^ 64) : h < 2 ^ 64 := by
  cases l with
  | nil =>
    have : h = 0 := hl
    omega
  | cons p ps =>
    obtain ⟨h1, _, _⟩ := hl
    rw [h1]
    exact hlt p (List.mem_cons_self _ _)

/-- The loop of `poolRelease` over a free list that does not hold `ptr`, with
an iteration allowed for each node, ends with "not found". -/
theorem poolRelease.search_not_mem (m : Mem) (ptr : Nat) (l : List Nat) :
    ∀ (fuel h : Nat), FreeListIs m h l → h ≠ 0 → l.length ≤ fuel → ptr ∉ l →
      poolRelease.search m ptr fuel h = some false := by
  induction l with
  | nil =>
    intro fuel h hl hne _ _
    exact absurd hl hne
  | cons p ps ih =>
    intro fuel h hl _ hfuel hnot
    obtain ⟨h1, h2, h3⟩ := hl
    subst h1
    have hp : ptr ≠ h := fun e => hnot (e ▸ List.mem_cons_self _ _)
    cases fuel with
    | zero => simp at hfuel
    | succ fuel =>
      simp only [poolRelease.search, hp, if_false]
      by_cases hz : read64 m h = 0
      · simp [hz]
      · simp only [ne_eq, hz, not_false_eq_true, if_true]
        exact ih fuel _ h3 hz (by simpa using hfuel) (fun hm => hnot (List.mem_cons_of_mem _ hm))

/-- One `poolRelease` of a slot that is not on the free list, in free-list
mode: `ptr` becomes the head of the list, in front of the nodes it had. -/
theorem releaseStep_push (fuel : Nat) (w : World) (arena : MemoryArena) (pool : MemoryPool)
    (p : Nat) (l : List Nat) (hnc : pool.flags &&& FlagPoolCompacting = 0)
    (hl : FreeListIs w.mem pool.freeList l) (hfuel : l.length ≤ fuel) (hp0 : p ≠ 0)
    (hapart : ∀ q ∈ l, p + 8 ≤ q ∨ q + 8 ≤ p) (hflt : pool.freeList < 2 ^ 64) :
    ∃ w1, releaseStep fuel (w, arena, pool) p =
        some (w1, arena, { pool with count := pool.count - 1, freeList := p }) ∧
      FreeListIs w1.mem p (p :: l) := by
  have hnot : p ∉ l := by
    intro hm
    have := hapart p hm
    omega
  have hfound : (if pool.freeList ≠ 0 ∧ pool.flags &&& FlagPoolNoDoubleFreeCheck = 0 then
      poolRelease.search w.mem p fuel pool.freeList else some false) = some false := by
    split_ifs with hc
    · exact poolRelease.search_not_mem w.mem p l fuel _ hl hc.1 hfuel hnot
    · rfl
  refine ⟨World.mk (write64 w.mem p pool.freeList) w.log w.reports, ?_, rfl, hp0, ?_⟩
  · unfold releaseStep poolRelease
    simp only [hfound, hnc, ne_eq, not_true_eq_false, if_false]
  · simp only
    rw [read64_write64 _ _ _ hflt]
    exact FreeListIs_congr w.mem _ l _
      (fun q hq x h1 h2 => write64_outside _ _ _ _ (by have := hapart q hq; omega)) hl

/-- One `poolRetrieve` in free-list mode with a free list that is not empty:
it returns the head of the list and leaves the rest of the list. -/
theorem retrieveStep_pop (os : OS) (w : World) (arena : MemoryArena) (pool : MemoryPool)
    (p : Nat) (l : List Nat) (hnc : pool.flags &&& FlagPoolCompacting = 0)
    (hl : FreeListIs w.mem pool.freeList (p :: l))
    (hapart : ∀ q ∈ l, p + pool.elementSize ≤ q ∨ q + 8 ≤ p) :
    ∃ w1, retrieveStep os (w, arena, pool) =
        ((w1, arena, { pool with count := pool.count + 1, freeList := read64 w.mem p }), p) ∧
      FreeListIs w1.mem (read64 w.mem p) l := by
  obtain ⟨h1, h2, h3⟩ := hl
  have hcond : pool.flags &&& FlagPoolCompacting = 0 ∧ pool.freeList ≠ 0 := ⟨hnc, h1 ▸ h2⟩
  by_cases hnz : pool.flags &&& FlagPoolNoZeroMemory = 0
  · refine ⟨World.mk (memset w.mem p 0 pool.elementSize) w.log w.reports, ?_, ?_⟩
    · unfold retrieveStep poolRetrieve
      rw [if_pos hcond]
      simp only [hnz, if_true, h1]
    · exact FreeListIs_congr w.mem _ l _
        (fun q hq x hx1 hx2 => memset_outside _ _ _ _ _ (by have := hapart q hq; omega)) h3
  · refine ⟨w, ?_, h3⟩
    unfold retrieveStep poolRetrieve
    rw [if_pos hcond]
    simp only [hnz, if_false, h1]

/-- With an element size of at least `sizeof(void*)` and `head <= end < 2^63`,
`poolInit` stores the element size as given and a capacity whose slots fit
before the end of the arena. -/
theorem poolInit_of_pointer_size (old : MemoryPool) (alloc : MemoryArena) (e flags : Nat)
    (he : 8 ≤ e) (hle : alloc.head ≤ alloc.end_) (hend : alloc.end_ < 2 ^ 63) :
    (poolInit old alloc e flags).elementSize = e ∧
    (poolInit old alloc e flags).capacity = (((alloc.end_ - alloc.head) / e : Nat) : Int) ∧
    (alloc.end_ - alloc.head) / e * (poolInit old alloc e flags).elementSize
      ≤ alloc.end_ - (poolInit old alloc e flags).slots := by
  have hsub : wsub alloc.end_ alloc.head = alloc.end_ - alloc.head :=
    wsub_of_le _ _ hle (by omega)
  have hdiv : (alloc.end_ - alloc.head) / e ≤ alloc.end_ - alloc.head := Nat.div_le_self _ _
  have hne : ¬ e < sizeofPointer := by unfold sizeofPointer; omega
  unfold poolInit
  simp only [hne, if_false, hsub]
  refine ⟨trivial, toISize_of_lt _ (by omega), Nat.div_mul_le_self _ _⟩

/-- On a pool with the FixedSize flag a `poolRetrieve` that does not return null
keeps `lastFilled + 1 <= capacity`. -/
theorem poolRetrieve_fixed_keeps_bound (os : OS) (w : World) (arena : MemoryArena)
    (pool : MemoryPool) (hfixed : pool.flags &&& FlagPoolFixedSize ≠ 0)
    (hinv : pool.lastFilled + 1 ≤ pool.capacity)
    (hret : (poolRetrieve os w arena pool).2.2.2 ≠ 0) :
    (poolRetrieve os w arena pool).2.2.1.lastFilled + 1 ≤
      (poolRetrieve os w arena pool).2.2.1.capacity := by
  unfold poolRetrieve at hret ⊢
  simp only [hfixed, if_true] at hret ⊢
  split_ifs at hret ⊢ with h1 h2 h3
  all_goals first
    | exact absurd rfl hret
    | (simp only [poolRetrieve.advance]; omega)

/-- A `poolRelease` of the slot at the head of the free list, in free-list mode
with the double-free check on: it is reported and the free list stays, but
`count` has been lowered. -/
theorem poolRelease_head_again (fuel : Nat) (w : World) (pool : MemoryPool) (p : Nat)
    (hcheck : pool.flags &&& FlagPoolNoDoubleFreeCheck = 0) (hhead : pool.freeList = p)
    (hp : p ≠ 0) :
    poolRelease (fuel + 1) w pool p =
      some (w.report Report.poolReleaseDoubleFree, { pool with count := pool.count - 1 }) := by
  unfold poolRelease
  simp only [hhead, hp, ne_eq, not_false_eq_true, hcheck, and_self, if_true,
    poolRelease.search]

/-! ### Tagged heap: scenario S5, free, new sub-arenas -/

/-- C21 (scenario S5), evaluated: on `demoHeap` (sub-arenas of 4096 bytes,
normal flags) the three allocations succeed, the second one from a second
sub-arena (at 69672), and the pool count is 3; but `arenas[1]` is still the
first sub-arena (65536), so `taggedFree(heap, 1)` releases that one only: the
count goes from 3 to 2, not to 1.  `arenas[1]` is null afterwards, `arenas[2]`
and the words of its sub-arena are as before. -/
theorem taggedFree_S5_releases_one :
    (runHeap demoOS 8 demoS5Ops demoHeapStart).map
        (fun s => (s.2, s.1.2.2.pool.count, s.1.2.2.arenas.getD 1 0, s.1.2.2.arenas.getD 2 0)) =
      some ([65568, 69704, 73840], 3, 65536, 73808) ∧
    (runHeap demoOS 8 demoS5Ops demoHeapStart).map
        (fun s => (read64 s.1.1.mem 73808, read64 s.1.1.mem 73824, read64 s.1.1.mem 73832)) =
      some (2, 74840, 77936) ∧
    (runHeap demoOS 8 (demoS5Ops ++ [HeapOp.free 1]) demoHeapStart).map
        (fun s => (s.1.2.2.pool.count, s.1.2.2.arenas.getD 1 0, s.1.2.2.arenas.getD 2 0)) =
      some (2, 0, 73808) ∧
    (runHeap demoOS 8 (demoS5Ops ++ [HeapOp.free 1]) demoHeapStart).map
        (fun s => (read64 s.1.1.mem 73808, read64 s.1.1.mem 73824, read64 s.1.1.mem 73832)) =
      some (2, 74840, 77936) := by
  decide

/-- C24, evaluated: `demoHeap` is created without TaggedHeapNoZeroMemory; after
one allocation of 100 bytes under tag 1 (at 65568) is filled with the byte 170,
`taggedFree(heap, 1)` returns the sub-arena to the pool and leaves the bytes of
its buffer as they were: the first and the last byte written still read 170. -/
theorem taggedFree_keeps_bytes :
    demoHeapWritten.2.flags &&& FlagTaggedHeapNoZeroMemory = 0 ∧
    demoHeapWritten.2.arenas.getD 1 0 = 65536 ∧
    (taggedFree 8 demoHeapWritten.1 demoHeapWritten.2 1).map
        (fun r => (r.2.arenas.getD 1 0, r.2.pool.freeList, r.1.mem 65568, r.1.mem 65667)) =
      some (0, 65536, 170, 170) := by
  decide

/-- C25, evaluated: after `taggedAlloc(heap, 1, 3000)` the sub-arena of tag 1
(at 65536) cannot fit 2000 bytes; `taggedAlloc(heap, 1, 2000)` retrieves a new
sub-arena (at 69672) and returns the start of its buffer (69704), but
`arenas[1]` is still 65536 in either search mode, and in SearchForBestFit mode
the `next` of the new sub-arena is null, not the previous head. -/
theorem taggedAlloc_new_arena_not_linked :
    (runHeap demoOS 8 [HeapOp.alloc 1 3000, HeapOp.alloc 1 2000] demoHeapStart).map
        (fun s => (s.2, s.1.2.2.arenas.getD 1 0, read64 s.1.1.mem 69672,
          read64 s.1.1.mem (69672 + 8))) =
      some ([65568, 69704], 65536, 1, 65536) ∧
    (runHeap demoOS 8 [HeapOp.alloc 1 3000, HeapOp.alloc 1 2000] demoSearchStart).map
        (fun s => (s.2, s.1.2.2.arenas.getD 1 0, read64 s.1.1.mem 69672,
          read64 s.1.1.mem (69672 + 8))) =
      some ([65568, 69704], 65536, 1, 0) := by
  decide

/-- C23, evaluated: in SearchForBestFit mode, the list of tag 7 is a full
sub-arena (65536), then one with 3000 bytes left (69672), then one with 500
bytes left (73808).  For 400 bytes the search collects the two that fit;
`wbi__taggedArenaSortBySize` leaves them in list order (its key is
`head - head`), and `taggedAlloc` allocates from the first, the one with 3000
bytes left: it returns 70800 and moves that head to 71200, the head of the
sub-arena with 500 bytes left stays at 77436. -/
theorem taggedAlloc_best_fit_takes_first :
    demoBestFitHeap.flags &&& FlagTaggedHeapSearchForBestFit ≠ 0 ∧
    (read64 demoBestFitWorld.mem (69672 + 24) - read64 demoBestFitWorld.mem (69672 + 16) = 3000 ∧
      read64 demoBestFitWorld.mem (73808 + 24) - read64 demoBestFitWorld.mem (73808 + 16) = 500) ∧
    taggedAlloc.search demoBestFitWorld.mem 400 8 65536 [] = some (0, [69672, 73808]) ∧
    wbi__taggedArenaSortBySize demoBestFitWorld.mem [69672, 73808] 2 = [69672, 73808] ∧
    (taggedAlloc demoOS 8 demoBestFitWorld demoNormalInit.2 demoBestFitHeap 7 400).map
        (fun r => (r.2.2.2, read64 r.1.mem (69672 + 16), read64 r.1.mem (73808 + 16))) =
      some (70800, 71200, 77436) := by
  decide

/-! ### alignTo -/

/-- C28: for a power of two `a` and `x + a - 1 < 2^64`, `alignTo(x, a)` is the
least multiple of `a` that is at least `x`: it is a multiple of `a`, lies in
`[x, x + a)`, is at most every multiple of `a` from `x` on, and aligning it
again gives the same value. -/
theorem alignTo_least_multiple (x a : Nat) (hpow : ∃ k, a = 2 ^ k) (hx : x + a - 1 < 2 ^ 64) :
    alignTo x a % a = 0 ∧ x ≤ alignTo x a ∧ alignTo x a < x + a ∧
    (∀ y, x ≤ y → y % a = 0 → alignTo x a ≤ y) ∧
    alignTo (alignTo x a) a = alignTo x a := by
  obtain ⟨k, rfl⟩ := hpow
  have hpos : 0 < 2 ^ k := Nat.two_pow_pos k
  by_cases hk : k < 64
  · have hx2 : x + 2 ^ k ≤ 2 ^ 64 := by omega
    obtain ⟨h1, h2, h3⟩ := alignTo_pow2_spec x k hk hx2
    refine ⟨Nat.mod_eq_zero_of_dvd h3, h1, h2, ?_, ?_⟩
    · intro y hxy hy
      exact alignTo_pow2_le_of_dvd x y k hk hx2 (Nat.dvd_of_mod_eq_zero hy) hxy
    · rw [alignTo_pow2 (alignTo x (2 ^ k)) k hk, if_pos (Nat.mod_eq_zero_of_dvd h3)]
  · have hge : 2 ^ 64 ≤ 2 ^ k := Nat.pow_le_pow_right (by decide) (by omega)
    have hx0 : x = 0 := by omega
    subst hx0
    have h0 : alignTo 0 (2 ^ k) = 0 := by
      unfold alignTo
      simp
    rw [h0]
    refine ⟨by simp, le_refl _, by omega, ?_, h0⟩
    intro y _ _
    omega

theorem alignTo_least_multiple_witness :
    alignTo 13 8 % 8 = 0 ∧ 13 ≤ alignTo 13 8 ∧ alignTo 13 8 < 13 + 8 ∧
    (∀ y, 13 ≤ y → y % 8 = 0 → alignTo 13 8 ≤ y) ∧
    alignTo (alignTo 13 8) 8 = alignTo 13 8 :=
  alignTo_least_multiple 13 8 ⟨3, by decide⟩ (by decide)

/-! ### Fixed-size bootstrap of a tagged heap -/

/-- C29, evaluated: for sub-arenas of 4096 bytes and a count of 8,
`calcTaggedHeapSize` gives 33736 bytes; `taggedFixedSizeBootstrap` over the
buffer at 4096 of that size pushes the arena descriptor (112 bytes) and the
heap descriptor (648 bytes), so the slots start at 4856 and the capacity of the
backing pool is 7, not 8.  The pool does not carry FlagPoolFixedSize: the
eighth `poolRetrieve` reports nothing and returns 33808, a slot that ends at
37944, past the end of the buffer (37832). -/
theorem taggedFixedSizeBootstrap_capacity_short :
    calcTaggedHeapSize 4096 8 1 = 33736 ∧
    demoFixedHeap.map
        (fun r => (r.2.1.head, r.2.1.end_, r.2.2.1.pool.slots, r.2.2.1.pool.capacity,
          r.2.2.1.pool.flags)) =
      some (4856, 37832, 4856, 7, 8) ∧
    demoFixedHeap.map
        (fun r => ((retrieveN demoOS 8 (r.1, r.2.1, r.2.2.1.pool)).2,
          (retrieveN demoOS 8 (r.1, r.2.1, r.2.2.1.pool)).1.1.reports)) =
      some ([4856, 8992, 13128, 17264, 21400, 25536, 29672, 33808], []) := by
  decide

/-! ### Tagged heap: what `taggedFree` leaves alone -/

theorem TagListIs_congr (m m2 : Mem) (l : List Nat) :
    ∀ h, (∀ p ∈ l, ∀ x, p + 8 ≤ x → x < p + 16 → m2 x = m x) →
      TagListIs m h l → TagListIs m2 h l := by
  induction l with
  | nil => intro h _ hl; exact hl
  | cons p ps ih =>
    intro h hagree hl
    obtain ⟨h1, h2, h3⟩ := hl
    refine ⟨h1, h2, ?_⟩
    have hr : read64 m2 (p + 8) = read64 m (p + 8) :=
      read64_congr m m2 (p + 8) (fun x hx1 hx2 =>
        hagree p (List.mem_cons_self _ _) x hx1 (by omega))
    rw [hr]
    exact ih _ (fun q hq => hagree q (List.mem_cons_of_mem _ hq)) h3

/-- On a pool without the double-free check and not compacting, `poolRelease`
stores the free-list head in the first word of the slot and makes the slot the
head. -/
theorem poolRelease_unchecked (fuel : Nat) (w : World) (pool : MemoryPool) (p : Nat)
    (hnc : pool.flags &&& FlagPoolCompacting = 0)
    (hchk : pool.flags &&& FlagPoolNoDoubleFreeCheck ≠ 0) :
    poolRelease fuel w pool p =
      some (World.mk (write64 w.mem p pool.freeList) w.log w.reports,
        { pool with count := pool.count - 1, freeList := p }) := by
  unfold poolRelease
  simp only [hchk, and_false, if_false, hnc, ne_eq, not_true_eq_false]

/-- The loop of `taggedFree` over a well-formed list whose sub-arenas lie at
least 16 bytes apart: it ends, and writes only the first word of each
sub-arena of the list. -/
theorem taggedFree.loop_frame (fuel : Nat) (l : List Nat) :
    ∀ (left : Nat) (w : World) (pool : MemoryPool) (head : Nat),
      pool.flags &&& FlagPoolCompacting = 0 → pool.flags &&& FlagPoolNoDoubleFreeCheck ≠ 0 →
      TagListIs w.mem head l → head ≠ 0 → l.length ≤ left → SlotsApart 16 l →
      ∃ r, taggedFree.loop fuel left w pool head = some r ∧
        r.2.flags = pool.flags ∧ r.2.elementSize = pool.elementSize ∧
        r.2.count = pool.count - l.length ∧
        ∀ x, (∀ p ∈ l, x < p ∨ p + 8 ≤ x) → r.1.mem x = w.mem x := by
  induction l with
  | nil =>
    intro left w pool head _ _ hl hne _ _
    exact absurd hl hne
  | cons p ps ih =>
    intro left w pool head hnc hchk hl hne hlen hap
    obtain ⟨h1, h2, h3⟩ := hl
    subst h1
    obtain ⟨left1, rfl⟩ : ∃ k, left = k + 1 := ⟨left - 1, by simp at hlen; omega⟩
    have hap1 : ∀ q ∈ ps, head + 16 ≤ q ∨ q + 16 ≤ head := (List.pairwise_cons.mp hap).1
    have hap2 : SlotsApart 16 ps := (List.pairwise_cons.mp hap).2
    have hnext : read64 (write64 w.mem head pool.freeList) (head + 8) = read64 w.mem (head + 8) :=
      read64_congr w.mem _ (head + 8) (fun x hx1 _ => write64_outside _ _ _ _ (by omega))
    unfold taggedFree.loop
    rw [poolRelease_unchecked fuel w pool head hnc hchk]
    simp only [hnext]
    by_cases hz : read64 w.mem (head + 8) = 0
    · have hps : ps = [] := by
        cases ps with
        | nil => rfl
        | cons q qs =>
          obtain ⟨e1, e2, _⟩ := h3
          exact absurd (e1 ▸ hz) e2
      subst hps
      simp only [hz, ne_eq, not_true_eq_false, if_false]
      refine ⟨_, rfl, rfl, rfl, ?_, ?_⟩
      · simp
      · intro x hx
        exact write64_outside _ _ _ _ (hx head (List.mem_cons_self _ _))
    · simp only [hz, ne_eq, not_false_eq_true, if_true]
      have hl2 : TagListIs (write64 w.mem head pool.freeList) (read64 w.mem (head + 8)) ps :=
        TagListIs_congr w.mem _ ps _ (fun q hq x hx1 hx2 =>
          write64_outside _ _ _ _ (by have := hap1 q hq; omega)) h3
      obtain ⟨r, hr, hf, he, hc, hm⟩ := ih left1
        (World.mk (write64 w.mem head pool.freeList) w.log w.reports)
        { pool with count := pool.count - 1, freeList := head } (read64 w.mem (head + 8))
        hnc hchk hl2 hz (by simp at hlen; omega) hap2
      refine ⟨r, hr, hf, he, ?_, ?_⟩
      · rw [hc]
        simp only [List.length_cons]
        push_cast
        omega
      · intro x hx
        rw [hm x (fun q hq => hx q (List.mem_cons_of_mem _ hq))]
        exact write64_outside _ _ _ _ (hx head (List.mem_cons_self _ _))

theorem getD_set_same (l : List Nat) (i v d : Nat) (hi : i < l.length) :
    (l.set i v).getD i d = v := by
  simp [List.getD_eq_getElem?_getD, List.getElem?_set, hi]

theorem getD_set_other (l : List Nat) (i j v d : Nat) (hij : i ≠ j) :
    (l.set i v).getD j d = l.getD j d := by
  simp [List.getD_eq_getElem?_getD, List.getElem?_set, hij]

theorem TagListIs_head_zero (m : Mem) (h : Nat) (l : List Nat) (hl : TagListIs m h l)
    (hz : h = 0) : l = [] := by
  cases l with
  | nil => rfl
  | cons q qs =>
    obtain ⟨e1, e2, _⟩ := hl
    exact absurd (e1 ▸ hz) e2

/-- The frame of `taggedFree` on a well-formed heap: the backing pool is as
`taggedInit` makes it (free-list mode, no double-free check, slots of
`arenaSize + 40` bytes), the lists of the tags `i` and `j` are well formed
with their sub-arenas pairwise apart, `i` is in range and `i != j`.  Then
`taggedFree(heap, i)` returns, sets `arenas[i]` to null, leaves `arenas[j]` as it was, and leaves the tag, next, head and end
words and every buffer byte of each sub-arena of the list of `j` as they
were, so that this list is still the list of `j`. -/
theorem taggedFree_frame (fuel : Nat) (w : World) (heap : TaggedHeap) (i j : Nat)
    (li lj : List Nat) (hi : i < heap.arenas.length) (hij : i ≠ j)
    (hnc : heap.pool.flags &&& FlagPoolCompacting = 0)
    (hchk : heap.pool.flags &&& FlagPoolNoDoubleFreeCheck ≠ 0)
    (hes : heap.pool.elementSize = heap.arenaSize + sizeofTaggedHeapArena)
    (hli : TagListIs w.mem (heap.arenas.getD i 0) li)
    (hlj : TagListIs w.mem (heap.arenas.getD j 0) lj)
    (hap : SlotsApart heap.pool.elementSize (li ++ lj))
    (hfuel : li.length ≤ fuel) :
    ∃ r, taggedFree fuel w heap i = some r ∧
      r.2.arenas.getD i 0 = 0 ∧ r.2.arenas.getD j 0 = heap.arenas.getD j 0 ∧
      TagListIs r.1.mem (r.2.arenas.getD j 0) lj ∧
      ∀ q ∈ lj, read64 r.1.mem q = read64 w.mem q ∧
        read64 r.1.mem (q + 8) = read64 w.mem (q + 8) ∧
        read64 r.1.mem (q + 16) = read64 w.mem (q + 16) ∧
        read64 r.1.mem (q + 24) = read64 w.mem (q + 24) ∧
        ∀ x, q + 32 ≤ x → x < q + 32 + heap.arenaSize → r.1.mem x = w.mem x := by
  have h40 : sizeofTaggedHeapArena = 40 := rfl
  have hcross : ∀ p ∈ li, ∀ q ∈ lj,
      p + heap.pool.elementSize ≤ q ∨ q + heap.pool.elementSize ≤ p :=
    (List.pairwise_append.mp hap).2.2
  have hapi : SlotsApart 16 li :=
    List.Pairwise.imp (fun {a b} hab => by omega) (List.pairwise_append.mp hap).1
  -- the memory after the loop agrees with the memory before on the list of `j`
  have hmain : ∃ r, (if heap.arenas.getD i 0 ≠ 0 then
        taggedFree.loop fuel fuel w heap.pool (heap.arenas.getD i 0)
      else some (w, heap.pool)) = some r ∧
      ∀ x, (∀ p ∈ li, x < p ∨ p + 8 ≤ x) → r.1.mem x = w.mem x := by
    by_cases hz : heap.arenas.getD i 0 = 0
    · exact ⟨(w, heap.pool), by rw [if_neg (fun h => h hz)], fun x _ => rfl⟩
    · obtain ⟨r, hr, _, _, _, hm⟩ := taggedFree.loop_frame fuel li fuel w heap.pool
        (heap.arenas.getD i 0) hnc hchk hli hz hfuel hapi
      exact ⟨r, by rw [if_pos hz, hr], hm⟩
  obtain ⟨r, hr, hm⟩ := hmain
  have hsame : ∀ q ∈ lj, ∀ x, q ≤ x → x < q + heap.pool.elementSize → r.1.mem x = w.mem x := by
    intro q hq x hx1 hx2
    apply hm
    intro p hp
    have := hcross p hp q hq
    omega
  refine ⟨(r.1, { heap with pool := r.2, arenas := heap.arenas.set i 0 }), ?_, ?_, ?_, ?_, ?_⟩
  · unfold taggedFree
    simp only [hr]
  · exact getD_set_same _ _ _ _ hi
  · exact getD_set_other _ _ _ _ _ hij
  · rw [getD_set_other _ _ _ _ _ hij]
    exact TagListIs_congr w.mem _ lj _
      (fun q hq x hx1 hx2 => hsame q hq x (by omega) (by omega)) hlj
  · intro q hq
    refine ⟨?_, ?_, ?_, ?_, ?_⟩
    · exact read64_congr _ _ _ (fun x hx1 hx2 => hsame q hq x (by omega) (by omega))
    · exact read64_congr _ _ _ (fun x hx1 hx2 => hsame q hq x (by omega) (by omega))
    · exact read64_congr _ _ _ (fun x hx1 hx2 => hsame q hq x (by omega) (by omega))
    · exact read64_congr _ _ _ (fun x hx1 hx2 => hsame q hq x (by omega) (by omega))
    · intro x hx1 hx2
      exact hsame q hq x (by omega) (by omega)

theorem taggedFree_frame_witness :
    ∃ r, taggedFree 1 demoS5State.1.1 demoS5State.1.2.2 1 = some r ∧
      r.2.arenas.getD 1 0 = 0 ∧ r.2.arenas.getD 2 0 = demoS5State.1.2.2.arenas.getD 2 0 ∧
      TagListIs r.1.mem (r.2.arenas.getD 2 0) [73808] ∧
      ∀ q ∈ [73808], read64 r.1.mem q = read64 demoS5State.1.1.mem q ∧
        read64 r.1.mem (q + 8) = read64 demoS5State.1.1.mem (q + 8) ∧
        read64 r.1.mem (q + 16) = read64 demoS5State.1.1.mem (q + 16) ∧
        read64 r.1.mem (q + 24) = read64 demoS5State.1.1.mem (q + 24) ∧
        ∀ x, q + 32 ≤ x → x < q + 32 + demoS5State.1.2.2.arenaSize →
          r.1.mem x = demoS5State.1.1.mem x :=
  taggedFree_frame 1 demoS5State.1.1 demoS5State.1.2.2 1 2 [65536] [73808]
    (by decide) (by decide) (by decide) (by decide) (by decide)
    ⟨by decide, by decide, by show read64 demoS5State.1.1.mem (65536 + 8) = 0; decide⟩
    ⟨by decide, by decide, by show read64 demoS5State.1.1.mem (73808 + 8) = 0; decide⟩
    (by unfold SlotsApart; decide) (by decide)

/-! ### Pool: the free list over any sequence of retrieves and releases -/

theorem FreeListIs_ne_zero (m : Mem) (l : List Nat) :
    ∀ h, FreeListIs m h l → ∀ q ∈ l, q ≠ 0 := by
  induction l with
  | nil => intro h _ q hq; simp at hq
  | cons p ps ih =>
    intro h hl q hq
    obtain ⟨_, h2, h3⟩ := hl
    rcases List.mem_cons.mp hq with rfl | hq
    · exact h2
    · exact ih _ h3 q hq

theorem poolRelease.search_mem (m : Mem) (ptr : Nat) (l : List Nat) :
    ∀ (fuel h : Nat), FreeListIs m h l → l.length ≤ fuel → ptr ∈ l →
      poolRelease.search m ptr fuel h = some true := by
  induction l with
  | nil => intro fuel h _ _ hm; simp at hm
  | cons p ps ih =>
    intro fuel h hl hfuel hm
    obtain ⟨h1, h2, h3⟩ := hl
    subst h1
    obtain ⟨f, rfl⟩ : ∃ k, fuel = k + 1 := ⟨fuel - 1, by simp at hfuel; omega⟩
    unfold poolRelease.search
    by_cases hp : ptr = h
    · simp [hp]
    · have hps : ptr ∈ ps := by
        rcases List.mem_cons.mp hm with e | e
        · exact absurd e hp
        · exact e
      have hnz : read64 m h ≠ 0 := by
        cases ps with
        | nil => simp at hps
        | cons q qs =>
          obtain ⟨e1, e2, _⟩ := h3
          rw [e1]; exact e2
      simp only [hp, if_false, hnz, ne_eq, not_false_eq_true, if_true]
      exact ih f _ h3 (by simp at hfuel; omega) hps

theorem slots_apart_of_ne (s es i j : Nat) (h : s + i * es ≠ s + j * es) :
    s + i * es + es ≤ s + j * es ∨ s + j * es + es ≤ s + i * es := by
  rcases Nat.lt_trichotomy i j with hl | he | hg
  · left
    have : (i + 1) * es ≤ j * es := Nat.mul_le_mul_right es hl
    rw [Nat.add_mul] at this
    omega
  · exact absurd (by rw [he]) h
  · right
    have : (j + 1) * es ≤ i * es := Nat.mul_le_mul_right es hg
    rw [Nat.add_mul] at this
    omega

theorem slot_lt_word (B s es i : Nat) (L : Int) (hb : s + B * es < 2 ^ 64)
    (hB : L + 1 ≤ (B : Int)) (hi : (i : Int) ≤ L) : s + i * es + es < 2 ^ 64 + es ∧
      s + i * es + es ≤ s + B * es := by
  have hiB : i + 1 ≤ B := by omega
  have : (i + 1) * es ≤ B * es := Nat.mul_le_mul_right es hiB
  rw [Nat.add_mul] at this
  omega

theorem poolRetrieve_empty_list (os : OS) (w : World) (arena : MemoryArena) (pool : MemoryPool)
    (hfl : pool.freeList = 0) :
    (poolRetrieve os w arena pool).2.2.1.freeList = 0 ∧
    (poolRetrieve os w arena pool).2.2.1.flags = pool.flags ∧
    (poolRetrieve os w arena pool).2.2.1.elementSize = pool.elementSize ∧
    (poolRetrieve os w arena pool).2.2.1.slots = pool.slots ∧
    (((poolRetrieve os w arena pool).2.2.2 = 0 ∧
        (poolRetrieve os w arena pool).2.2.1.lastFilled = pool.lastFilled ∧
        (poolRetrieve os w arena pool).2.2.1.count = pool.count) ∨
      ((poolRetrieve os w arena pool).2.2.1.lastFilled = pool.lastFilled + 1 ∧
        (poolRetrieve os w arena pool).2.2.1.count = pool.count + 1 ∧
        (poolRetrieve os w arena pool).2.2.2 =
          wadd pool.slots (wmul (ofISize (pool.lastFilled + 1)) pool.elementSize))) := by
  unfold poolRetrieve
  simp only [hfl, ne_eq, not_true_eq_false, and_false, if_false]
  split_ifs
  all_goals simp [poolRetrieve.advance, hfl]

theorem retrieveStep_inv (os : OS) (B : Nat) (w : World) (arena : MemoryArena)
    (pool : MemoryPool) (ret F : List Nat) (hinv : PoolInv B w pool ret F)
    (hB : pool.lastFilled + 2 ≤ B) :
    ∃ F2, PoolInv B (retrieveStep os (w, arena, pool)).1.1
        (retrieveStep os (w, arena, pool)).1.2.2
        (ret ++ [(retrieveStep os (w, arena, pool)).2]) F2 ∧
      F2.length ≤ F.length ∧
      (retrieveStep os (w, arena, pool)).1.2.2.lastFilled ≤ pool.lastFilled + 1 := by
  obtain ⟨hnc, hchk, hes, hlf, hb, hl, hnd, hF, hret, hcnt⟩ := hinv
  cases F with
  | cons p ps =>
    have hap : ∀ q ∈ ps, p + pool.elementSize ≤ q ∨ q + 8 ≤ p := by
      intro q hq
      obtain ⟨i, _, hi⟩ := hF p (List.mem_cons_self _ _)
      obtain ⟨j, _, hj⟩ := hF q (List.mem_cons_of_mem _ hq)
      have hne : p ≠ q := fun e => (List.nodup_cons.mp hnd).1 (e ▸ hq)
      rw [hi, hj] at hne
      have := slots_apart_of_ne pool.slots pool.elementSize i j hne
      omega
    obtain ⟨w1, hstep, hlist⟩ := retrieveStep_pop os w arena pool p ps hnc hl hap
    rw [hstep]
    refine ⟨ps, ⟨hnc, hchk, hes, hlf, hb, hlist, (List.nodup_cons.mp hnd).2,
      fun q hq => hF q (List.mem_cons_of_mem _ hq), ?_, ?_⟩, by simp, by simp⟩
    · intro q hq
      rcases List.mem_append.mp hq with h | h
      · exact hret q h
      · rw [List.mem_singleton.mp h]
        exact Or.inr (hF p (List.mem_cons_self _ _))
    · simp only [List.length_cons] at hcnt ⊢
      push_cast at hcnt
      omega
  | nil =>
    have hfl : pool.freeList = 0 := hl
    have hBw : B < 2 ^ 64 := by
      have : B * 1 ≤ B * pool.elementSize := Nat.mul_le_mul_left B (by omega)
      omega
    obtain ⟨h1, h2, h3, h4, h5⟩ := poolRetrieve_empty_list os w arena pool hfl
    unfold retrieveStep
    simp only
    refine ⟨[], ⟨by rw [h2]; exact hnc, by rw [h2]; exact hchk, by rw [h3]; exact hes, ?_,
      by rw [h3, h4]; exact hb, h1, List.nodup_nil, by simp, ?_, ?_⟩, le_refl _, ?_⟩
    · rcases h5 with ⟨_, e, _⟩ | ⟨e, _, _⟩ <;> omega
    · intro q hq
      rcases List.mem_append.mp hq with h | h
      · rcases hret q h with h0 | ⟨i, hi1, hi2⟩
        · exact Or.inl h0
        · refine Or.inr ⟨i, ?_, by rw [h3, h4]; exact hi2⟩
          rcases h5 with ⟨_, e, _⟩ | ⟨e, _, _⟩ <;> omega
      · rw [List.mem_singleton.mp h]
        rcases h5 with ⟨e0, _, _⟩ | ⟨e1, _, e3⟩
        · exact Or.inl e0
        · refine Or.inr ⟨(pool.lastFilled + 1).toNat, by omega, ?_⟩
          rw [e3, h3, h4, ofISize_of_nonneg _ (by omega) (by omega)]
          have hle : (pool.lastFilled + 1).toNat * pool.elementSize ≤ B * pool.elementSize :=
            Nat.mul_le_mul_right _ (by omega)
          unfold wadd wmul
          rw [Nat.mod_eq_of_lt (a := (pool.lastFilled + 1).toNat * pool.elementSize) (by omega),
            Nat.mod_eq_of_lt (by omega)]
    · rcases h5 with ⟨_, e1, e2⟩ | ⟨e1, e2, _⟩
      · rw [e1, e2]; simpa using hcnt
      · rw [e1, e2]; simp at hcnt ⊢; omega
    · rcases h5 with ⟨_, e, _⟩ | ⟨e, _, _⟩ <;> omega

theorem releaseStep_inv (fuel B : Nat) (w : World) (arena : MemoryArena) (pool : MemoryPool)
    (ret F : List Nat) (p : Nat) (hinv : PoolInv B w pool ret F)
    (hB : pool.lastFilled + 1 ≤ B) (hp : p = 0 ∨ p ∈ ret) (hfuel : F.length ≤ fuel) :
    ∃ s1 F2, releaseStep fuel (w, arena, pool) p = some s1 ∧
      PoolInv B s1.1 s1.2.2 ret F2 ∧ F2.length ≤ F.length + 1 ∧
      s1.2.2.lastFilled = pool.lastFilled := by
  obtain ⟨hnc, hchk, hes, hlf, hb, hl, hnd, hF, hret, hcnt⟩ := hinv
  have hnz : ∀ q ∈ F, q ≠ 0 := FreeListIs_ne_zero w.mem F _ hl
  by_cases hmem : p ∈ F
  · -- a slot of the free list: the release is rejected
    have hne : pool.freeList ≠ 0 := by
      cases F with
      | nil => simp at hmem
      | cons q qs => obtain ⟨e1, e2, _⟩ := hl; rw [e1]; exact e2
    have hfound : poolRelease.search w.mem p fuel pool.freeList = some true :=
      poolRelease.search_mem w.mem p F fuel _ hl hfuel hmem
    refine ⟨(w.report Report.poolReleaseDoubleFree, arena,
      { pool with count := pool.count - 1 }), F, ?_, ⟨hnc, hchk, hes, hlf, hb, hl, hnd, hF, hret,
        ?_⟩, by omega, rfl⟩
    · unfold releaseStep poolRelease
      simp only [hne, ne_eq, not_false_eq_true, hchk, and_self, if_true, hfound]
    · show pool.count - 1 + (F.length : Int) ≤ pool.lastFilled + 1
      omega
  · by_cases hp0 : p = 0
    · -- the null pointer: stored as the head, the list is dropped
      have hfound : (if pool.freeList ≠ 0 ∧ pool.flags &&& FlagPoolNoDoubleFreeCheck = 0 then
          poolRelease.search w.mem p fuel pool.freeList else some false) = some false := by
        split_ifs with hc
        · exact poolRelease.search_not_mem w.mem p F fuel _ hl hc.1 hfuel hmem
        · rfl
      refine ⟨(World.mk (write64 w.mem p pool.freeList) w.log w.reports, arena,
        { pool with count := pool.count - 1, freeList := p }), [], ?_,
        ⟨hnc, hchk, hes, hlf, hb, hp0, List.nodup_nil, by simp, hret, ?_⟩, by simp, rfl⟩
      · unfold releaseStep poolRelease
        simp only [hfound, hnc, ne_eq, not_true_eq_false, if_false]
      · show pool.count - 1 + (([] : List Nat).length : Int) ≤ pool.lastFilled + 1
        simp only [List.length_nil]
        push_cast
        omega
    · -- a slot handed out that is not on the list: pushed
      have hpr : p ∈ ret := hp.resolve_left hp0
      obtain ⟨i, hi1, hi2⟩ := (hret p hpr).resolve_left hp0
      have hap : ∀ q ∈ F, p + 8 ≤ q ∨ q + 8 ≤ p := by
        intro q hq
        obtain ⟨j, _, hj⟩ := hF q hq
        have hne : p ≠ q := fun e => hmem (e ▸ hq)
        rw [hi2, hj] at hne
        have := slots_apart_of_ne pool.slots pool.elementSize i j hne
        omega
      have hflt : pool.freeList < 2 ^ 64 := by
        apply FreeListIs_head_lt w.mem _ F hl
        intro q hq
        obtain ⟨j, hj1, hj2⟩ := hF q hq
        have := slot_lt_word B pool.slots pool.elementSize j pool.lastFilled hb hB hj1
        omega
      obtain ⟨w1, hstep, hlist⟩ := releaseStep_push fuel w arena pool p F hnc hl hfuel hp0 hap hflt
      refine ⟨_, p :: F, hstep, ⟨hnc, hchk, hes, hlf, hb, hlist, List.nodup_cons.mpr ⟨hmem, hnd⟩,
        ?_, hret, ?_⟩, by simp, rfl⟩
      · intro q hq
        rcases List.mem_cons.mp hq with e | e
        · exact ⟨i, hi1, e ▸ hi2⟩
        · exact hF q e
      · show pool.count - 1 + ((p :: F).length : Int) ≤ pool.lastFilled + 1
        simp only [List.length_cons]
        push_cast
        omega

/-- A scripted scenario on a pool in a consistent state runs to its end and
leaves the pool in a consistent state. -/
theorem runPool_inv (os : OS) (fuel B : Nat) (ops : List PoolOp) :
    ∀ (w : World) (arena : MemoryArena) (pool : MemoryPool) (ret F : List Nat),
      PoolInv B w pool ret F → (F.length + ops.length ≤ fuel) →
      pool.lastFilled + 1 + ops.length ≤ B →
      ∃ s F2, runPool os fuel ops ((w, arena, pool), ret) = some s ∧
        PoolInv B s.1.1 s.1.2.2 s.2 F2 := by
  induction ops with
  | nil =>
    intro w arena pool ret F hinv _ _
    exact ⟨_, F, rfl, hinv⟩
  | cons op ops ih =>
    intro w arena pool ret F hinv hfuel hB
    simp only [List.length_cons] at hfuel hB
    push_cast at hB
    cases op with
    | retrieve =>
      obtain ⟨F2, hinv2, hlen, hlf⟩ := retrieveStep_inv os B w arena pool ret F hinv (by omega)
      obtain ⟨s, F3, hrun, hinv3⟩ := ih _ (retrieveStep os (w, arena, pool)).1.2.1 _ _ F2 hinv2
        (by omega) (by omega)
      exact ⟨s, F3, hrun, hinv3⟩
    | releaseNth i =>
      have hp : ret.getD i 0 = 0 ∨ ret.getD i 0 ∈ ret := by
        by_cases hi : i < ret.length
        · right
          rw [List.getD_eq_getElem _ _ hi]
          exact List.getElem_mem _
        · left
          exact List.getD_eq_default _ _ (by omega)
      obtain ⟨s1, F2, hstep, hinv2, hlen, hlf⟩ :=
        releaseStep_inv fuel B w arena pool ret F (ret.getD i 0) hinv (by omega) hp (by omega)
      obtain ⟨s, F3, hrun, hinv3⟩ := ih s1.1 s1.2.1 s1.2.2 ret F2 hinv2 (by omega)
        (by rw [hlf]; omega)
      refine ⟨s, F3, ?_, hinv3⟩
      show (match releaseStep fuel (w, arena, pool) (ret.getD i 0) with
        | none => none
        | some s1 => runPool os fuel ops (s1, ret)) = some s
      rw [hstep]
      exact hrun

/-- C27: a pool made by `poolInit` without the Compacting flag and with the
double-free check, then any scripted sequence of `poolRetrieve` calls and of
`poolRelease` calls on pointers that earlier `poolRetrieve` calls of the
sequence returned (the same pointer any number of times), with fuel for the
scans of the free list and the slots inside the address space: the sequence
runs to its end, and then the free list is a finite list `F` of non-null nodes
without repetition with `count + |F| <= lastFilled + 1`. -/
theorem pool_free_list_invariant (os : OS) (fuel : Nat) (w : World) (arena : MemoryArena)
    (old : MemoryPool) (e flags : Nat) (ops : List PoolOp)
    (hnc : flags &&& FlagPoolCompacting = 0) (hchk : flags &&& FlagPoolNoDoubleFreeCheck = 0)
    (hfuel : ops.length ≤ fuel)
    (hroom : arena.head + ops.length * (poolInit old arena e flags).elementSize < 2 ^ 64) :
    ∃ s F, runPool os fuel ops ((w, arena, poolInit old arena e flags), []) = some s ∧
      FreeListIs s.1.1.mem s.1.2.2.freeList F ∧ F.Nodup ∧
      s.1.2.2.count + F.length ≤ s.1.2.2.lastFilled + 1 := by
  have hinv : PoolInv ops.length w (poolInit old arena e flags) [] [] := by
    refine ⟨hnc, hchk, ?_, ?_, hroom, rfl, List.nodup_nil, by simp, by simp, ?_⟩
    · show 8 ≤ (if e < sizeofPointer then sizeofPointer else e)
      unfold sizeofPointer
      split_ifs <;> omega
    · show (-1 : Int) ≤ -1
      omega
    · show (0 : Int) + (([] : List Nat).length : Int) ≤ -1 + 1
      simp
  obtain ⟨s, F, hrun, hinv2⟩ := runPool_inv os fuel ops.length ops w arena
    (poolInit old arena e flags) [] [] hinv (by simp; exact hfuel)
    (by show (-1 : Int) + 1 + (ops.length : Int) ≤ (ops.length : Int); omega)
  obtain ⟨_, _, _, _, _, hl, hnd, _, _, hcnt⟩ := hinv2
  exact ⟨s, F, hrun, hl, hnd, hcnt⟩

theorem pool_free_list_invariant_witness :
    ∃ s F, runPool demoOS 5
        [PoolOp.retrieve, PoolOp.retrieve, PoolOp.releaseNth 0, PoolOp.releaseNth 0,
          PoolOp.retrieve]
        ((demoWorld, demoFixedArena, poolInit MemoryPool.zeroed demoFixedArena 32
          FlagPoolFixedSize), []) = some s ∧
      FreeListIs s.1.1.mem s.1.2.2.freeList F ∧ F.Nodup ∧
      s.1.2.2.count + F.length ≤ s.1.2.2.lastFilled + 1 :=
  pool_free_list_invariant demoOS 5 demoWorld demoFixedArena MemoryPool.zeroed 32
    FlagPoolFixedSize
    [PoolOp.retrieve, PoolOp.retrieve, PoolOp.releaseNth 0, PoolOp.releaseNth 0,
      PoolOp.retrieve]
    (by decide) (by decide) (by decide) (by decide)

/-! ### Tagged heap: sequences of allocations that make the pool grow -/

/-- A second sequence for C26, on an Extended arena: `demoExtendedHeap` is made by `taggedInit` over an arena
with the Extended flag and 8 KiB committed, so its pool has a capacity of 1.
`taggedAlloc(heap, 5, 100)` takes the sub-arena at 65536 (slot 0, tag word 5)
and returns 65568.  `taggedAlloc(heap, 6, 100)` makes the pool grow: its
`arenaPush` on the arena, whose head is still at 65536, stores the extended
word 0 at the old head, over the tag word of slot 0.  The third call
`taggedAlloc(heap, 5, 100)` succeeds with 65672, inside the buffer of slot 0,
whose tag word now reads 0, not 5; nothing is reported. -/
theorem taggedAlloc_tag_overwritten_by_growth :
    demoExtendedInit.2.flags = FlagArenaExtended ∧ demoExtendedHeap.pool.capacity = 1 ∧
    (runHeap demoOS 8 [HeapOp.alloc 5 100] demoExtendedStart).map
        (fun s => (s.2, s.1.2.2.arenas.getD 5 0, read64 s.1.1.mem 65536, s.1.2.1.head)) =
      some ([65568], 65536, 5, 65536) ∧
    (runHeap demoOS 8 [HeapOp.alloc 5 100, HeapOp.alloc 6 100] demoExtendedStart).map
        (fun s => (s.2, s.1.2.2.arenas.getD 5 0, read64 s.1.1.mem 65536, s.1.2.1.head)) =
      some ([65568, 69704], 65536, 0, 73736) ∧
    (runHeap demoOS 8 [HeapOp.alloc 5 100, HeapOp.alloc 6 100, HeapOp.alloc 5 100]
        demoExtendedStart).map
        (fun s => (s.2, s.1.2.2.arenas.getD 5 0, read64 s.1.1.mem 65536, s.1.1.reports)) =
      some ([65568, 69704, 65672], 65536, 0, []) := by
  decide

/-- C26, evaluated: `demoStackHeap` is made by `taggedInit` over an arena with
the Stack flag and one page committed; its slots are 2728 bytes, its pool has a
capacity of 1.  The allocations of `demoStackHeapOps` return 65568 (tag 0),
68296 (tag 1, 2000 bytes), 71024 (tag 2), 73752 (tag 3, from the sub-arena at
73720, whose head word then holds 73856) and 76480 (tag 4).  The last one makes
the pool grow for the second time: `arenaPush` on the arena, whose head (69640)
lies inside the slot array, stores that old head as the stack back-pointer at
73736, the head word of the live sub-arena of tag 3.  The next
`taggedAlloc(heap, 3, 100)` succeeds with 69640: not inside the buffer of the
sub-arena of tag 3 (73752 to 76440) but inside the 2000 bytes at 68296 returned
under tag 1, which has not been freed.  Nothing is reported. -/
theorem taggedAlloc_overlap_after_growth :
    demoStackPageInit.2.flags = FlagArenaStack ∧ demoStackHeap.pool.elementSize = 2728 ∧
    demoStackHeap.pool.capacity = 1 ∧
    (runHeap demoOS 8 (demoStackHeapOps.take 4) demoStackHeapStart).map
        (fun s => (s.2, s.1.2.2.arenas.getD 3 0, read64 s.1.1.mem (73720 + 16),
          read64 s.1.1.mem (73720 + 24), s.1.2.1.head)) =
      some ([65568, 68296, 71024, 73752], 73720, 73856, 76440, 69640) ∧
    (runHeap demoOS 8 demoStackHeapOps demoStackHeapStart).map
        (fun s => (s.2, s.1.2.2.arenas.getD 3 0, read64 s.1.1.mem (73720 + 16),
          read64 s.1.1.mem (73720 + 24), s.1.2.1.head)) =
      some ([65568, 68296, 71024, 73752, 76480], 73720, 69640, 76440, 73744) ∧
    (runHeap demoOS 8 (demoStackHeapOps ++ [HeapOp.alloc 3 100]) demoStackHeapStart).map
        (fun s => (s.2, s.1.2.2.arenas.getD 1 0, s.1.2.2.arenas.getD 3 0, s.1.1.reports)) =
      some ([65568, 68296, 71024, 73752, 76480, 69640], 68264, 73720, []) ∧
    (68296 ≤ 69640 ∧ 69640 + 100 ≤ 68296 + 2000) := by
  refine ⟨by decide, by decide, by decide, by decide, by decide, by decide, by decide⟩

/-! ### Fixed-size bootstrap of a tagged heap: the capacity for every size and count -/

theorem arenaPush_fixed_plain (os : OS) (w : World) (a : MemoryArena) (size : Nat)
    (hflags : a.flags = 1 ∨ a.flags = 9) (halign : a.align = 8) (hh : a.head % 8 = 0)
    (hs : size % 8 = 0) (hroom : a.head + size < 2 ^ 64) :
    arenaPush os w a size =
      if a.head + size > a.end_ then (w.report Report.arenaPushOutOfMemory, a, 0)
      else (w, { a with head := a.head + size }, a.head) := by
  have hst : a.flags &&& FlagArenaStack = 0 := by
    rcases hflags with h | h <;> rw [h] <;> decide
  have hex : a.flags &&& FlagArenaExtended = 0 := by
    rcases hflags with h | h <;> rw [h] <;> decide
  have hfx : a.flags &&& FlagArenaFixedSize ≠ 0 := by
    rcases hflags with h | h <;> rw [h] <;> decide
  have hsz : arenaPushEx.size a size = size := by
    unfold arenaPushEx.size
    simp only [hst, hex, ne_eq, not_true_eq_false, if_false]
  have hnew : alignTo (wadd a.head size) a.align = a.head + size := by
    rw [wadd_of_lt _ _ hroom, halign]
    exact alignTo_of_mod_eight _ (by omega)
  unfold arenaPush arenaPushEx
  simp only [hsz, hnew, hfx, ne_eq, not_false_eq_true, if_true, arenaPushEx.finish, hst, hex,
    not_true_eq_false, if_false]

/-- For every sub-arena size `s` and count `n >= 1`: when
`taggedFixedSizeBootstrap` over an 8-byte-aligned buffer of
`calcTaggedHeapSize(s, n, 1)` bytes gives a heap, the capacity of its pool is
below `n` (the arena descriptor and the heap descriptor take 760 bytes, the
size counts 648). -/
theorem taggedFixedSizeBootstrap_capacity_lt (os : OS) (w : World) (s n buffer flags : Nat)
    (hn : 1 ≤ n) (hb : buffer % 8 = 0) (hroom : buffer + (n * (s + 40) + 648) < 2 ^ 63) :
    ∀ r, taggedFixedSizeBootstrap os w s buffer (calcTaggedHeapSize s n 1) flags = some r →
      r.2.2.1.pool.capacity < n := by
  intro r hr
  have hmul : n * (s + 40) < 2 ^ 63 := by omega
  have hs40 : s + 40 < 2 ^ 63 := by
    have : 1 * (s + 40) ≤ n * (s + 40) := Nat.mul_le_mul_right _ hn
    omega
  have hcalc : calcTaggedHeapSize s n 1 = n * (s + 40) + 648 := by
    unfold calcTaggedHeapSize wadd wmul sizeofTaggedHeapArena sizeofTaggedHeap sizeofMemoryPool
      WB_ALLOC_TAGGEDHEAP_MAX_TAG_COUNT
    rw [Nat.mod_eq_of_lt (a := s + 40) (by omega), Nat.mod_eq_of_lt (a := n * (s + 40)) (by omega)]
    norm_num
    omega
  rw [hcalc] at hr
  unfold taggedFixedSizeBootstrap at hr
  simp only at hr
  generalize hF : (FlagArenaFixedSize |||
    (if (flags ||| FlagTaggedHeapFixedSize) &&& FlagTaggedHeapNoZeroMemory ≠ 0 then
      FlagArenaNoZeroMemory else 0)) = F at hr
  have hF2 : F = 1 ∨ F = 9 := by
    rw [← hF]
    split_ifs
    · right; decide
    · left; decide
  -- the arena of `arenaFixedSizeBootstrap` before its push
  have hflags0 : (arenaFixedSizeInit MemoryArena.zeroed buffer (n * (s + 40) + 648)
      (F ||| FlagArenaFixedSize)).flags = F := by
    show F ||| FlagArenaFixedSize ||| FlagArenaFixedSize = F
    rcases hF2 with h | h <;> rw [h] <;> decide
  have hend0 : (arenaFixedSizeInit MemoryArena.zeroed buffer (n * (s + 40) + 648)
      (F ||| FlagArenaFixedSize)).end_ = buffer + (n * (s + 40) + 648) := by
    show wadd buffer (n * (s + 40) + 648) = _
    exact wadd_of_lt _ _ (by omega)
  have hhead0 : (arenaFixedSizeInit MemoryArena.zeroed buffer (n * (s + 40) + 648)
      (F ||| FlagArenaFixedSize)).head = buffer := rfl
  have halign0 : (arenaFixedSizeInit MemoryArena.zeroed buffer (n * (s + 40) + 648)
      (F ||| FlagArenaFixedSize)).align = 8 := rfl
  have hstack : F &&& FlagArenaStack = 0 := by
    rcases hF2 with h | h <;> rw [h] <;> decide
  unfold arenaFixedSizeBootstrap at hr
  simp only [hstack, ne_eq, not_true_eq_false, if_false] at hr
  generalize arenaFixedSizeInit MemoryArena.zeroed buffer (n * (s + 40) + 648)
    (F ||| FlagArenaFixedSize) = a0 at hr hflags0 hend0 hhead0 halign0
  have h112 : sizeofMemoryArena + 16 = 112 := rfl
  have h648 : sizeofTaggedHeap = 648 := rfl
  have h40 : sizeofTaggedHeapArena = 40 := rfl
  have hpush1 := arenaPush_fixed_plain os w a0 (sizeofMemoryArena + 16)
    (by rw [hflags0]; exact hF2) halign0 (by rw [hhead0]; exact hb) (by decide)
    (by rw [hhead0, h112]; omega)
  by_cases h1 : a0.head + (sizeofMemoryArena + 16) > a0.end_
  · rw [hpush1, if_pos h1] at hr
    simp at hr
  · rw [hpush1, if_neg h1] at hr
    simp only at hr
    by_cases hz : a0.head = 0
    · simp [hz] at hr
    · simp only [hz, if_false] at hr
      have hpush2 := arenaPush_fixed_plain os w
        { a0 with head := a0.head + (sizeofMemoryArena + 16) } sizeofTaggedHeap
        (by show a0.flags = 1 ∨ a0.flags = 9; rw [hflags0]; exact hF2) halign0
        (by show (a0.head + (sizeofMemoryArena + 16)) % 8 = 0; rw [hhead0, h112]; omega)
        (by decide)
        (by show a0.head + (sizeofMemoryArena + 16) + sizeofTaggedHeap < 2 ^ 64
            rw [hhead0, h112, h648]; omega)
      by_cases h3 : a0.head + (sizeofMemoryArena + 16) + sizeofTaggedHeap > a0.end_
      · rw [hpush2] at hr
        simp only at hr
        rw [if_pos h3] at hr
        simp at hr
      · rw [hpush2] at hr
        simp only at hr
        rw [if_neg h3] at hr
        have hnz : a0.head + (sizeofMemoryArena + 16) ≠ 0 := by rw [h112]; omega
        simp only [hnz, if_false, Option.some.injEq] at hr
        rw [← hr]
        show toISize (wsub a0.end_ (a0.head + (sizeofMemoryArena + 16) + sizeofTaggedHeap) /
          wadd s sizeofTaggedHeapArena) < (n : Int)
        rw [hend0, hhead0, h112, h648, h40] at *
        rw [wadd_of_lt s 40 (by omega), wsub_of_le _ _ (by omega) (by omega)]
        have hdiv : (buffer + (n * (s + 40) + 648) - (buffer + 112 + 648)) / (s + 40) < n := by
          apply (Nat.div_lt_iff_lt_mul (by omega)).mpr
          omega
        have hn63 : n < 2 ^ 63 := by
          have : n * 1 ≤ n * (s + 40) := Nat.mul_le_mul_left n (by omega)
          omega
        rw [toISize_of_lt _ (by omega)]
        exact_mod_cast hdiv

/-! ### Tagged heap: `taggedFree` after the growth of the pool -/

/-- C22, evaluated: `demoStackHeapWide` is made by `taggedInit` (sub-arenas of
3240 bytes, NoZeroMemory) over an arena with the Stack flag and one page
committed.  One allocation of 3000 bytes under each of the tags 0 to 6 gives
each tag its sub-arena; tag 3 has the one at 75376 and holds the 3000 bytes at
75408, tag 5 has the one at 81936.  The growth of the pool for tag 6 stores the
stack back-pointer 77848 at 81944, the `next` word of the sub-arena of tag 5.
`taggedFree(heap, 5)` then releases 81936 and goes on to 77848: it stores the
free-list link 81936 at 77848, inside the buffer of the sub-arena of tag 3 and
inside the bytes returned under tag 3 (they held 0 before), lowers the count by
2 and leaves 77848 as head of the free list.  `arenas[5]` is null and
`arenas[3]` is as before. -/
theorem taggedFree_writes_other_tag_buffer :
    (runHeap demoOS 8 demoStackHeapWideOps demoStackHeapWideStart).map
        (fun s => (s.2, s.1.2.2.arenas.getD 3 0, s.1.2.2.arenas.getD 5 0)) =
      some ([65568, 68848, 72128, 75408, 78688, 81968, 85248], 75376, 81936) ∧
    (runHeap demoOS 8 demoStackHeapWideOps demoStackHeapWideStart).map
        (fun s => (read64 s.1.1.mem (81936 + 8), read64 s.1.1.mem 77848,
          s.1.2.2.pool.count, s.1.2.2.pool.freeList)) =
      some (77848, 0, 7, 0) ∧
    (runHeap demoOS 8 (demoStackHeapWideOps ++ [HeapOp.free 5]) demoStackHeapWideStart).map
        (fun s => (s.1.2.2.arenas.getD 3 0, s.1.2.2.arenas.getD 5 0, s.1.1.reports)) =
      some (75376, 0, []) ∧
    (runHeap demoOS 8 (demoStackHeapWideOps ++ [HeapOp.free 5]) demoStackHeapWideStart).map
        (fun s => (read64 s.1.1.mem 77848, s.1.2.2.pool.count, s.1.2.2.pool.freeList)) =
      some (81936, 5, 77848) ∧
    (75376 + 32 ≤ 77848 ∧ 77848 + 8 ≤ 75408 + 3000 ∧ 75408 + 3000 ≤ 75376 + 32 + 3240) := by
  refine ⟨by decide, by decide, by decide, by decide, by decide⟩

/-! ### Arena: two pushes of size zero -/

/-- On a plain arena (no Stack, no Extended flag) whose head is aligned and not
past `end`, two calls `arenaPush(arena, 0)` in a row both return the head and
leave the arena as it was. -/
theorem arenaPush_zero_twice_same (os : OS) (w : World) (a : MemoryArena)
    (hstack : a.flags &&& FlagArenaStack = 0) (hext : a.flags &&& FlagArenaExtended = 0)
    (hal : alignTo a.head a.align = a.head) (hle : a.head ≤ a.end_) (hw : a.head < 2 ^ 64) :
    arenaPush os w a 0 = (w, a, a.head) ∧
    (arenaPush os (arenaPush os w a 0).1 (arenaPush os w a 0).2.1 0).2.2 =
      (arenaPush os w a 0).2.2 := by
  have hw0 : wadd a.head 0 = a.head := wadd_of_lt _ _ (by omega)
  have h1 : arenaPush os w a 0 = (w, a, a.head) := by
    have hnot : ¬ a.head > a.end_ := Nat.not_lt.mpr hle
    simp [arenaPush, arenaPushEx, arenaPushEx.size, arenaPushEx.finish, hstack, hext, hw0, hal,
      hnot]
  refine ⟨h1, ?_⟩
  rw [h1]
  simp only
  rw [h1]

end WbAlloc
